import Mathlib

/-!
Verification of the reactive visual-entity synchronization core of the
rose-offline-client repository.

The development shallowly embeds three systems:
* `character_model_update_system` (src/systems/character_model_system.rs):
  rebuilds or patches a character's visual rig (skeleton bone entities and
  per-slot mesh part entities) in reaction to identity / equipment /
  personal-storefront changes.
* `name_tag_visibility_system` (src/systems/name_tag_visibility_system.rs):
  the hover/selection focus state machine over name-tag overlay anchors.
* `name_tag_vehicle_height_system` (src/systems/name_tag_vehicle_height_system.rs):
  repositions the name-tag anchor when a vehicle is mounted or dismounted.

Entities are natural numbers; the ECS world is modelled as a finite set of
live child entities together with a fresh-id counter.  The external
`ModelLoader` (the Visual Rig Builder) is not part of the repository's
sources, so it is modelled from the spec as a parameter structure.
-/

namespace RoseOfflineClient

/-- The body-type-relevant identity field of `CharacterInfo`. -/
inductive Gender
  | male
  | female
deriving DecidableEq, Repr

/-- `CharacterInfo`: the identity component.  Only `gender` is inspected by
the synchronizer; `other` stands for the remaining identity fields. -/
structure CharacterInfo where
  gender : Gender
  other : Nat
deriving DecidableEq, Repr

/-- `Equipment` is treated as an opaque value by the synchronizer; it is only
handed to the rig builder. -/
abbrev Equipment := Nat

/-- `CharacterModel` component: the recorded body type plus per-slot lists of
mesh part entities (`model_parts`). -/
structure CharacterModel where
  gender : Gender
  modelParts : List (List Nat)
deriving DecidableEq, Repr

/-- `SkinnedMesh` component: the skeleton's ordered bone (joint) entities. -/
structure SkinnedMesh where
  joints : List Nat
deriving DecidableEq, Repr

/-- The slice of the ECS world the synchronizer touches: the set of live
child entities (spawned rig children) and a fresh entity-id counter. -/
structure EcsWorld where
  live : Finset Nat
  nextId : Nat
deriving DecidableEq

/-- The components of one character entity that the three systems read or
write. -/
structure CharState where
  characterInfo : CharacterInfo
  equipment : Equipment
  characterModel : Option CharacterModel
  dummyBoneOffset : Option Nat
  skinnedMesh : Option SkinnedMesh
  personalStore : Option Unit
  modelHeight : Option ℚ
  collider : Bool
  blinkTimer : Bool
deriving DecidableEq, Repr

/-- Modelled from the spec: the Visual Rig Builder (`model_loader`) is an
external collaborator whose sources are not part of this repository.  It is
a pure function from identity and equipment to rig shape:
`partCounts` gives the number of mesh part entities per equipment-slot
category, `boneCount` the number of skeleton bone entities, `slotAffected`
the slots recomputed by an in-place equipment update, and
`driverSeatHeight` the vehicle seat-height lookup used by the height
tracker. -/
structure ModelLoader where
  partCounts : CharacterInfo → Equipment → List Nat
  boneCount : CharacterInfo → Equipment → Nat
  slotAffected : CharacterInfo → Equipment → Nat → Bool
  driverSeatHeight : Equipment → ℚ

/-- `commands.entity(e).despawn_recursive()` guarded by the
`query_entities.get(e).is_ok()` existence check, as written in the source. -/
def despawnChecked (w : EcsWorld) (e : Nat) : EcsWorld :=
  if e ∈ w.live then { w with live := w.live.erase e } else w

/-- Drain a recorded child-entity list, despawning each entity behind the
existence guard. -/
def despawnList (w : EcsWorld) (es : List Nat) : EcsWorld :=
  es.foldl despawnChecked w

/-- Allocate `n` fresh entity ids. -/
def allocN (w : EcsWorld) (n : Nat) : EcsWorld × List Nat :=
  (⟨w.live ∪ (List.range' w.nextId n).toFinset, w.nextId + n⟩, List.range' w.nextId n)

/-- Allocate fresh part entities for each slot, given the per-slot counts. -/
def allocSlots (w : EcsWorld) : List Nat → EcsWorld × List (List Nat)
  | [] => (w, [])
  | n :: ns =>
    let r1 := allocN w n
    let r2 := allocSlots r1.1 ns
    (r2.1, r1.2 :: r2.2)

/-- Result of `ModelLoader::spawn_character_model`. -/
structure SpawnResult where
  world : EcsWorld
  characterModel : CharacterModel
  skinnedMesh : SkinnedMesh
  dummyBoneOffset : Nat

/-- Modelled from the spec: `build(identity, equipment) → Rig` — spawn a
fresh skeleton (bone entities) and fresh per-slot part entities, all newly
allocated, and record the character's body type on the model. -/
def spawnCharacterModel (ml : ModelLoader) (w : EcsWorld) (info : CharacterInfo)
    (eqp : Equipment) : SpawnResult :=
  let rb := allocN w (ml.boneCount info eqp)
  let rp := allocSlots rb.1 (ml.partCounts info eqp)
  ⟨rp.1, ⟨info.gender, rp.2⟩, ⟨rb.2⟩, 0⟩

/-- Modelled from the spec: the slot-wise body of
`ModelLoader::update_character_equipment` — for each affected slot, despawn
the superseded part entities (behind the existence guard) and spawn fresh
replacements; unaffected slots are kept as they are. -/
def updateSlots (ml : ModelLoader) (info : CharacterInfo) (eqp : Equipment) :
    Nat → EcsWorld → List (List Nat) → EcsWorld × List (List Nat)
  | _, w, [] => (w, [])
  | i, w, ps :: rest =>
    if ml.slotAffected info eqp i then
      let w1 := despawnList w ps
      let ra := allocN w1 ((ml.partCounts info eqp).getD i 0)
      let rr := updateSlots ml info eqp (i + 1) ra.1 rest
      (rr.1, ra.2 :: rr.2)
    else
      let rr := updateSlots ml info eqp (i + 1) w rest
      (rr.1, ps :: rr.2)

/-- Modelled from the spec: `update(existing_rig, identity, equipment)` —
recompute only the affected slots of the existing `PartSet`, leaving the
skeleton untouched. -/
def updateCharacterEquipment (ml : ModelLoader) (w : EcsWorld) (info : CharacterInfo)
    (eqp : Equipment) (m : CharacterModel) : EcsWorld × CharacterModel :=
  let r := updateSlots ml info eqp 0 w m.modelParts
  (r.1, { m with modelParts := r.2 })

/-- The world together with the one character the systems act on. -/
structure CharStep where
  world : EcsWorld
  char : CharState
deriving DecidableEq

/-- The body of `character_model_update_system`'s changed-character loop
(lines 59–168) for one character: storefront teardown, in-place update, or
full rebuild. -/
def processChanged (ml : ModelLoader) (s : CharStep) : CharStep :=
  let c := s.char
  if c.personalStore.isSome then
    -- Personal store has its own model; remove character model to avoid overlap.
    let w1 := match c.characterModel with
      | some m => despawnList s.world m.modelParts.flatten
      | none => s.world
    let w2 := match c.skinnedMesh with
      | some sm => despawnList w1 sm.joints
      | none => w1
    ⟨w2, { c with collider := false, blinkTimer := false,
                  characterModel := none, skinnedMesh := none, dummyBoneOffset := none }⟩
  else
    match c.characterModel with
    | some m =>
      if c.characterInfo.gender = m.gender then
        -- Update existing model
        let r := updateCharacterEquipment ml s.world c.characterInfo c.equipment m
        ⟨r.1, { c with characterModel := some r.2, collider := false, modelHeight := none }⟩
      else
        -- Despawn model parts, despawn model skeleton, remove the old model collider
        let w1 := despawnList s.world m.modelParts.flatten
        let w2 := match c.skinnedMesh with
          | some sm => despawnList w1 sm.joints
          | none => w1
        let r := spawnCharacterModel ml w2 c.characterInfo c.equipment
        ⟨r.world, { c with characterModel := some r.characterModel,
                           skinnedMesh := some r.skinnedMesh,
                           dummyBoneOffset := some r.dummyBoneOffset,
                           blinkTimer := true, collider := false }⟩
    | none =>
      let r := spawnCharacterModel ml s.world c.characterInfo c.equipment
      ⟨r.world, { c with characterModel := some r.characterModel,
                         skinnedMesh := some r.skinnedMesh,
                         dummyBoneOffset := some r.dummyBoneOffset,
                         blinkTimer := true, collider := false }⟩

/-- The body of `character_model_update_system`'s `removed_personal_store`
loop (lines 173–199): rebuild the rig of a character whose `PersonalStore`
was removed; the `query_restore_from_personal_store` lookup skips the
character if it still has a `PersonalStore`. -/
def processRemoved (ml : ModelLoader) (s : CharStep) : CharStep :=
  if s.char.personalStore.isSome then s
  else
    let r := spawnCharacterModel ml s.world s.char.characterInfo s.char.equipment
    ⟨r.world, { s.char with blinkTimer := true, collider := false, modelHeight := none,
                            characterModel := some r.characterModel,
                            skinnedMesh := some r.skinnedMesh,
                            dummyBoneOffset := some r.dummyBoneOffset }⟩

/-- One invocation of `character_model_update_system` for one character:
the changed-character loop runs when `Changed<CharacterInfo | Equipment |
PersonalStore>` fired, then the storefront-removal loop runs when
`RemovedComponents<PersonalStore>` contains the character. -/
def characterModelUpdateSystem (ml : ModelLoader) (changed storeRemoved : Bool)
    (s : CharStep) : CharStep :=
  let s1 := if changed then processChanged ml s else s
  if storeRemoved then processRemoved ml s1 else s1

/-- The tracked mutations a character can undergo between system runs. -/
inductive ModelOp
  | setInfo (info : CharacterInfo)
  | setEquipment (eqp : Equipment)
  | openStore
  | closeStore
deriving DecidableEq, Repr

/-- Apply one mutation and run the system with the change-detection flags
that mutation produces: component writes raise `Changed`, removing
`PersonalStore` raises only the removal notification. -/
def stepOp (ml : ModelLoader) (op : ModelOp) (s : CharStep) : CharStep :=
  match op with
  | .setInfo info =>
    characterModelUpdateSystem ml true false ⟨s.world, { s.char with characterInfo := info }⟩
  | .setEquipment eqp =>
    characterModelUpdateSystem ml true false ⟨s.world, { s.char with equipment := eqp }⟩
  | .openStore =>
    characterModelUpdateSystem ml true false ⟨s.world, { s.char with personalStore := some () }⟩
  | .closeStore =>
    if s.char.personalStore.isSome then
      characterModelUpdateSystem ml false true ⟨s.world, { s.char with personalStore := none }⟩
    else s

/-- Run a sequence of tracked mutations. -/
def runOps (ml : ModelLoader) (ops : List ModelOp) (s : CharStep) : CharStep :=
  ops.foldl (fun s op => stepOp ml op s) s

/-- A freshly created character entity: components set, no rig yet, no rig
children alive. -/
def initStep (info : CharacterInfo) (eqp : Equipment) : CharStep :=
  ⟨⟨∅, 0⟩, ⟨info, eqp, none, none, none, none, none, false, false⟩⟩

/-- The part entities currently referenced by the character's `PartSet`. -/
def partsRef (c : CharState) : List Nat :=
  match c.characterModel with
  | some m => m.modelParts.flatten
  | none => []

/-- The bone entities currently referenced by the character's skeleton. -/
def jointsRef (c : CharState) : List Nat :=
  match c.skinnedMesh with
  | some sm => sm.joints
  | none => []

/-- All child entities referenced by the character's rig. -/
def refList (c : CharState) : List Nat :=
  partsRef c ++ jointsRef c

/-- The referenced child entities as a set. -/
def refSet (c : CharState) : Finset Nat :=
  (refList c).toFinset

/-- Structural well-formedness of a world/character pair: the live child
entities are exactly the referenced ones, references are duplicate-free and
below the allocation counter, and a missing model implies a missing
skeleton. -/
abbrev RigInvCore (s : CharStep) : Prop :=
  s.world.live = refSet s.char
  ∧ (refList s.char).Nodup
  ∧ (∀ e ∈ refList s.char, e < s.world.nextId)
  ∧ (s.char.characterModel = none → s.char.skinnedMesh = none)

/-- Full invariant: additionally, a character in storefront mode has no
rig components. -/
abbrev RigInv (s : CharStep) : Prop :=
  RigInvCore s
  ∧ (s.char.personalStore.isSome → s.char.characterModel = none ∧ s.char.skinnedMesh = none)

/-- An unguarded recursive despawn: faults (returns `none`) when the entity
is no longer live. -/
def despawnStrict (w : EcsWorld) (e : Nat) : Option EcsWorld :=
  if e ∈ w.live then some { w with live := w.live.erase e } else none

/-- The teardown loop exactly as the source writes it: each recorded child
is despawned only after the `query_entities.get(..).is_ok()` existence
check; a stale reference is skipped silently. -/
def teardownRecorded (w : EcsWorld) (es : List Nat) : Option EcsWorld :=
  es.foldl
    (fun acc e =>
      acc.bind fun w => if e ∈ w.live then despawnStrict w e else some w)
    (some w)

/-- The character components read by `name_tag_vehicle_height_system`,
together with this frame's `Added<Vehicle>` / `RemovedComponents<Vehicle>`
notifications. -/
structure VehicleDriver where
  nameTagEntity : Nat
  equipment : Equipment
  modelHeight : Option ℚ
  hasVehicle : Bool
  vehicleJustAdded : Bool
  vehicleJustRemoved : Bool

/-- One invocation of `name_tag_vehicle_height_system` for one character:
`tagY` maps a name-tag entity to the vertical translation of its
`Transform` (absent when the entity has no name-tag transform).  The
`Added<Vehicle>` query requires the vehicle to be present, the
stopped-driver query requires it absent and a recorded `ModelHeight`. -/
def nameTagVehicleHeightSystem (ml : ModelLoader) (d : VehicleDriver)
    (tagY : Nat → Option ℚ) : Nat → Option ℚ :=
  let t1 :=
    if d.vehicleJustAdded && d.hasVehicle then
      match tagY d.nameTagEntity with
      | some _ => fun e =>
          if e = d.nameTagEntity then
            some (ml.driverSeatHeight d.equipment + d.modelHeight.getD (9 / 5))
          else tagY e
      | none => tagY
    else tagY
  if d.vehicleJustRemoved && !d.hasVehicle then
    match d.modelHeight with
    | some h =>
      match t1 d.nameTagEntity with
      | some _ => fun e => if e = d.nameTagEntity then some h else t1 e
      | none => t1
    | none => t1
  else t1

/-- Bevy `Visibility` restricted to the two values the system writes. -/
inductive Visibility
  | inherited
  | hidden
deriving DecidableEq, Repr

/-- The kind of entity a name-tag overlay belongs to. -/
inductive NameTagType
  | character
  | npc
  | monster
deriving DecidableEq, BEq, Repr

/-- The `NameTagQuery` data of an anchor: its `NameTag` component's type tag
plus its `Children`. -/
structure NameTagData where
  nameTagType : NameTagType
  children : List Nat
deriving DecidableEq, Repr

/-- `NameTagSettings`: the per-tag-type "always show" display setting. -/
structure NameTagSettings where
  showAll : NameTagType → Bool

/-- The read-only queries of `name_tag_visibility_system`.  `nameTags e` is
`some` exactly when `e` has both `NameTag` and `Children`; `nameTagEntity c`
resolves a character to its anchor; `npcDead e` holds exactly when `e` has
both `Npc` and `Dead`. -/
structure NtWorld where
  nameTags : Nat → Option NameTagData
  nameTagEntity : Nat → Option Nat
  parent : Nat → Option Nat
  personalStore : Nat → Bool
  isTargetMark : Nat → Bool
  isHealthbarBackground : Nat → Bool
  isHealthbarForeground : Nat → Bool
  npcDead : Nat → Bool

/-- The mutable `Query<&mut Visibility>`: `none` when the entity has no
`Visibility` component. -/
abbrev VisMap := Nat → Option Visibility

/-- The system's `Local<NameTagVisibility>` state: the previously recorded
hover / selected anchors. -/
structure NameTagVisibility where
  hover : Option Nat
  selected : Option Nat
deriving DecidableEq, Repr

/-- The `SelectedTarget` resource: the hovered / selected characters. -/
structure SelectedTarget where
  hover : Option Nat
  selected : Option Nat
deriving DecidableEq, Repr

/-- Write an entity's `Visibility`, a no-op when the component is absent
(the `query_visibility.get_mut(..)` guard). -/
def setVisibility (vis : VisMap) (e : Nat) (v : Visibility) : VisMap :=
  match vis e with
  | some _ => fun x => if x = e then some v else vis x
  | none => vis

/-- `is_store_name_tag`: the anchor's parent exists and has a
`PersonalStore`. -/
def isStoreNameTag (w : NtWorld) (e : Nat) : Bool :=
  match w.parent e with
  | some p => w.personalStore p
  | none => false

/-- Membership in `query_name_tag_healthbar` (health-bar background or
foreground). -/
def isHealthbar (w : NtWorld) (e : Nat) : Bool :=
  w.isHealthbarBackground e || w.isHealthbarForeground e

/-- Membership in `query_name_tag_selected` (target mark or health-bar
element): the children hidden again when selection is lost. -/
def isSelectedOnly (w : NtWorld) (e : Nat) : Bool :=
  w.isTargetMark e || w.isHealthbarBackground e || w.isHealthbarForeground e

/-- The default (unfocused) visibility of an anchor: visible when it is a
store tag or its tag type is configured "always show", hidden otherwise. -/
def defaultVisibility (w : NtWorld) (settings : NameTagSettings) (e : Nat)
    (tag : NameTagData) : Visibility :=
  if isStoreNameTag w e || settings.showAll tag.nameTagType then .inherited else .hidden

/-- One step of a per-child visibility update; `rule c = none` leaves `c`
untouched. -/
def applyVisRule (rule : Nat → Option Visibility) (vis : VisMap) (c : Nat) : VisMap :=
  match rule c with
  | some v => setVisibility vis c v
  | none => vis

/-- Fold a per-entity visibility update over a child list. -/
def foldVisUpdates (rule : Nat → Option Visibility) (l : List Nat)
    (vis : VisMap) : VisMap :=
  l.foldl (applyVisRule rule) vis

/-- Dead-target veto (lines 65–81): a focus field referring to a dead NPC is
cleared. -/
def vetoTarget (w : NtWorld) (t : Option Nat) : Option Nat :=
  match t with
  | some e => if w.npcDead e then none else some e
  | none => none

/-- Hover-loss restore (lines 93–109): the previous hover anchor, when it
still has a name tag and a visibility, goes back to its default rule. -/
def restoreHoverVis (w : NtWorld) (settings : NameTagSettings)
    (prev : Option Nat) (vis : VisMap) : VisMap :=
  match prev with
  | some p =>
    match w.nameTags p with
    | some tag => setVisibility vis p (defaultVisibility w settings p tag)
    | none => vis
  | none => vis

/-- Selection-loss restore (lines 122–147): default rule for the anchor
itself, then force-hide its selection-only children. -/
def restoreSelectedVis (w : NtWorld) (settings : NameTagSettings)
    (prev : Option Nat) (vis : VisMap) : VisMap :=
  match prev with
  | some p =>
    match w.nameTags p with
    | some tag =>
      let vis1 := setVisibility vis p (defaultVisibility w settings p tag)
      foldVisUpdates (fun c => if isSelectedOnly w c then some .hidden else none)
        tag.children vis1
    | none => vis
  | none => vis

/-- Hover force-visible (lines 114–119): a hovered anchor's own tag is
always visible. -/
def forceVisible (t : Option Nat) (vis : VisMap) : VisMap :=
  match t with
  | some e => setVisibility vis e .inherited
  | none => vis

/-- Per-child visibility while selected (lines 164–175): hide health-bar
elements of store tags and of character tags, show everything else. -/
def selectedChildRule (w : NtWorld) (isStoreTag : Bool) (ty : NameTagType)
    (c : Nat) : Visibility :=
  if isHealthbar w c && (isStoreTag || ty == NameTagType.character) then .hidden
  else .inherited

/-- Selection-active block (lines 152–177): force the selected anchor
visible and apply the per-child rule to each of its children. -/
def applySelectedVis (w : NtWorld) (t : Option Nat) (vis : VisMap) : VisMap :=
  match t with
  | some e =>
    match w.nameTags e with
    | some tag =>
      let isStoreTag := isStoreNameTag w e
      let vis1 := setVisibility vis e .inherited
      foldVisUpdates (fun c => some (selectedChildRule w isStoreTag tag.nameTagType c))
        tag.children vis1
    | none => vis
  | none => vis

/-- The outcome of one system invocation. -/
structure NtOutcome where
  vis : VisMap
  state : NameTagVisibility
  target : SelectedTarget

/-- The hover phase (lines 92–119): on a hover change restore the previous
hover anchor's default visibility, then force the current hover anchor
visible. -/
def hoverPhase (w : NtWorld) (settings : NameTagSettings)
    (stHover hoverTag : Option Nat) (vis : VisMap) : VisMap :=
  forceVisible hoverTag
    (if stHover = hoverTag then vis else restoreHoverVis w settings stHover vis)

/-- The selection-change phase (lines 121–150): on a selection change
restore the previous selected anchor and hide its selection-only
children. -/
def selectPhase (w : NtWorld) (settings : NameTagSettings)
    (stSelected selectedTag : Option Nat) (vis : VisMap) : VisMap :=
  if stSelected = selectedTag then vis
  else restoreSelectedVis w settings stSelected vis

/-- One invocation of `name_tag_visibility_system`: dead-target veto, hover
change, hover force-visible, selection change, then the unconditional
selection-active block, in source order. -/
def nameTagVisibilitySystem (w : NtWorld) (settings : NameTagSettings)
    (st : NameTagVisibility) (tgt : SelectedTarget) (vis : VisMap) : NtOutcome :=
  let hover := vetoTarget w tgt.hover
  let selected := vetoTarget w tgt.selected
  let hoverTag := hover.bind w.nameTagEntity
  let selectedTag := selected.bind w.nameTagEntity
  let vis1 := hoverPhase w settings st.hover hoverTag vis
  let stHover := if st.hover = hoverTag then st.hover else hoverTag
  let vis2 := selectPhase w settings st.selected selectedTag vis1
  let stSelected := if st.selected = selectedTag then st.selected else selectedTag
  let vis3 := applySelectedVis w selectedTag vis2
  ⟨vis3, ⟨stHover, stSelected⟩, ⟨hover, selected⟩⟩

/-- A concrete rig-builder instance used to evaluate the systems on sample
inputs: two part slots of sizes 1 and 2, two bones, every slot affected by
updates, driver seat height 2. -/
def mlSample : ModelLoader :=
  ⟨fun _ _ => [1, 2], fun _ _ => 2, fun _ _ _ => true, fun _ => 2⟩

/-- A sample character with a live rig: part slots hold entities [0] and
[1, 2], the skeleton bones are [3, 4]. -/
def charSampleRig : CharState :=
  ⟨⟨Gender.male, 0⟩, 0, some ⟨Gender.male, [[0], [1, 2]]⟩, some 0, some ⟨[3, 4]⟩,
   none, some 1, true, true⟩

/-- The sample character together with its world: entities 0–4 alive. -/
def stepSampleRig : CharStep := ⟨⟨{0, 1, 2, 3, 4}, 5⟩, charSampleRig⟩

/-- The sample character at the tick where its storefront was just
opened: the rig from before the toggle is still attached. -/
def stepSampleStore : CharStep :=
  ⟨⟨{0, 1, 2, 3, 4}, 5⟩, { charSampleRig with personalStore := some () }⟩

/-- A sample name-tag transform store: entity 7 is the only name tag with a
transform, at height 1. -/
def tagYSample : Nat → Option ℚ := fun e => if e = 7 then some 1 else none

/-- A sample overlay world: character 1 owns NPC anchor 10 (children 12 =
target mark, 13/14 = health bars), character 2 owns character-type anchor
11 (plain child 15), character 3 is a dead NPC. -/
def ntWorldSample : NtWorld where
  nameTags := fun e =>
    if e = 10 then some ⟨NameTagType.npc, [12, 13, 14]⟩
    else if e = 11 then some ⟨NameTagType.character, [15]⟩
    else none
  nameTagEntity := fun e =>
    if e = 1 then some 10 else if e = 2 then some 11 else none
  parent := fun _ => none
  personalStore := fun _ => false
  isTargetMark := fun e => e == 12
  isHealthbarBackground := fun e => e == 13
  isHealthbarForeground := fun e => e == 14
  npcDead := fun e => e == 3

/-- Sample display settings: no tag type is configured "always show". -/
def settingsSample : NameTagSettings := ⟨fun _ => false⟩

/-- Sample visibility store: entities up to 20 have a `Visibility`
component, initially hidden. -/
def visSample : VisMap := fun e => if e ≤ 20 then some Visibility.hidden else none

theorem despawnChecked_live (w : EcsWorld) (e : Nat) :
    (despawnChecked w e).live = w.live.erase e := by
  unfold despawnChecked
  split
  · rfl
  · rename_i h
    rw [Finset.erase_eq_of_not_mem h]

theorem despawnChecked_nextId (w : EcsWorld) (e : Nat) :
    (despawnChecked w e).nextId = w.nextId := by
  unfold despawnChecked
  split <;> rfl

theorem despawnList_live (es : List Nat) : ∀ w : EcsWorld,
    (despawnList w es).live = w.live \ es.toFinset := by
  induction es with
  | nil => intro w; simp [despawnList]
  | cons a as ih =>
    intro w
    have h1 : despawnList w (a :: as) = despawnList (despawnChecked w a) as := rfl
    rw [h1, ih, despawnChecked_live]
    ext x
    simp only [Finset.mem_sdiff, Finset.mem_erase, List.mem_toFinset, List.toFinset_cons,
      Finset.mem_insert]
    tauto

theorem despawnList_nextId (es : List Nat) : ∀ w : EcsWorld,
    (despawnList w es).nextId = w.nextId := by
  induction es with
  | nil => intro w; rfl
  | cons a as ih =>
    intro w
    have h1 : despawnList w (a :: as) = despawnList (despawnChecked w a) as := rfl
    rw [h1, ih, despawnChecked_nextId]

theorem allocN_live (w : EcsWorld) (n : Nat) :
    (allocN w n).1.live = w.live ∪ (List.range' w.nextId n).toFinset := rfl

theorem allocN_nextId (w : EcsWorld) (n : Nat) :
    (allocN w n).1.nextId = w.nextId + n := rfl

theorem allocN_list (w : EcsWorld) (n : Nat) :
    (allocN w n).2 = List.range' w.nextId n := rfl

theorem allocSlots_spec (ns : List Nat) : ∀ w : EcsWorld,
    (allocSlots w ns).1.live = w.live ∪ (allocSlots w ns).2.flatten.toFinset
    ∧ w.nextId ≤ (allocSlots w ns).1.nextId
    ∧ (∀ e ∈ (allocSlots w ns).2.flatten, w.nextId ≤ e ∧ e < (allocSlots w ns).1.nextId)
    ∧ (allocSlots w ns).2.flatten.Nodup := by
  induction ns with
  | nil =>
    intro w
    refine ⟨by simp [allocSlots], Nat.le_refl _, ?_, by simp [allocSlots]⟩
    intro e he
    simp [allocSlots] at he
  | cons n ns ih =>
    intro w
    have h1 : (allocSlots w (n :: ns)).1 = (allocSlots (allocN w n).1 ns).1 := rfl
    have h2 : (allocSlots w (n :: ns)).2
        = (allocN w n).2 :: (allocSlots (allocN w n).1 ns).2 := rfl
    obtain ⟨ihl, ihn, ihb, ihnd⟩ := ih (allocN w n).1
    have hfr : ∀ e ∈ (allocN w n).2, w.nextId ≤ e ∧ e < w.nextId + n := by
      intro e he
      rw [allocN_list] at he
      exact List.mem_range'_1.mp he
    have hnid : (allocN w n).1.nextId = w.nextId + n := allocN_nextId w n
    refine ⟨?_, ?_, ?_, ?_⟩
    · rw [h1, h2, ihl, allocN_live]
      ext x
      simp only [Finset.mem_union, List.mem_toFinset, List.flatten_cons, List.mem_append]
      tauto
    · rw [h1]
      omega
    · rw [h1, h2]
      intro e he
      rw [List.flatten_cons, List.mem_append] at he
      rcases he with he | he
      · obtain ⟨t1, t2⟩ := hfr e he
        omega
      · obtain ⟨t1, t2⟩ := ihb e he
        omega
    · rw [h2, List.flatten_cons, List.nodup_append]
      refine ⟨by rw [allocN_list]; exact List.nodup_range' w.nextId n, ihnd, ?_⟩
      intro a ha hb
      have h3 := hfr a ha
      have h4 := (ihb a hb).1
      omega

theorem spawnCharacterModel_spec (ml : ModelLoader) (w : EcsWorld)
    (info : CharacterInfo) (eqp : Equipment) (r : SpawnResult)
    (hr : spawnCharacterModel ml w info eqp = r) :
    r.world.live
        = w.live ∪ (r.characterModel.modelParts.flatten ++ r.skinnedMesh.joints).toFinset
    ∧ (∀ e ∈ r.characterModel.modelParts.flatten ++ r.skinnedMesh.joints,
        w.nextId ≤ e ∧ e < r.world.nextId)
    ∧ (r.characterModel.modelParts.flatten ++ r.skinnedMesh.joints).Nodup
    ∧ w.nextId ≤ r.world.nextId
    ∧ r.characterModel.gender = info.gender := by
  subst hr
  have hworld : (spawnCharacterModel ml w info eqp).world
      = (allocSlots (allocN w (ml.boneCount info eqp)).1 (ml.partCounts info eqp)).1 := rfl
  have hparts : (spawnCharacterModel ml w info eqp).characterModel.modelParts
      = (allocSlots (allocN w (ml.boneCount info eqp)).1 (ml.partCounts info eqp)).2 := rfl
  have hjoints : (spawnCharacterModel ml w info eqp).skinnedMesh.joints
      = (allocN w (ml.boneCount info eqp)).2 := rfl
  obtain ⟨asl, asn, asb, asnd⟩ :=
    allocSlots_spec (ml.partCounts info eqp) (allocN w (ml.boneCount info eqp)).1
  have hfr : ∀ e ∈ (allocN w (ml.boneCount info eqp)).2,
      w.nextId ≤ e ∧ e < w.nextId + ml.boneCount info eqp := by
    intro e he
    rw [allocN_list] at he
    exact List.mem_range'_1.mp he
  have hnid : (allocN w (ml.boneCount info eqp)).1.nextId
      = w.nextId + ml.boneCount info eqp := allocN_nextId _ _
  refine ⟨?_, ?_, ?_, ?_, rfl⟩
  · rw [hworld, hparts, hjoints, asl, allocN_live]
    ext x
    simp only [Finset.mem_union, List.mem_toFinset, List.mem_append]
    tauto
  · rw [hworld, hparts, hjoints]
    intro e he
    rw [List.mem_append] at he
    rcases he with he | he
    · obtain ⟨t1, t2⟩ := asb e he
      omega
    · obtain ⟨t1, t2⟩ := hfr e he
      omega
  · rw [hparts, hjoints, List.nodup_append]
    refine ⟨asnd, by rw [allocN_list]; exact List.nodup_range' w.nextId _, ?_⟩
    intro a ha hb
    have h3 := asb a ha
    have h4 := hfr a hb
    omega
  · rw [hworld]
    omega

theorem updateSlots_spec (ml : ModelLoader) (info : CharacterInfo) (eqp : Equipment) :
    ∀ (pss : List (List Nat)) (i : Nat) (w : EcsWorld),
    pss.flatten.Nodup → (∀ e ∈ pss.flatten, e < w.nextId) →
    (∀ e ∈ pss.flatten, e ∈ w.live) →
    (updateSlots ml info eqp i w pss).1.live
        = (w.live \ pss.flatten.toFinset)
          ∪ (updateSlots ml info eqp i w pss).2.flatten.toFinset
    ∧ w.nextId ≤ (updateSlots ml info eqp i w pss).1.nextId
    ∧ (∀ e ∈ (updateSlots ml info eqp i w pss).2.flatten,
        e < (updateSlots ml info eqp i w pss).1.nextId)
    ∧ (updateSlots ml info eqp i w pss).2.flatten.Nodup
    ∧ (∀ e ∈ (updateSlots ml info eqp i w pss).2.flatten,
        e ∈ pss.flatten ∨ w.nextId ≤ e) := by
  intro pss
  induction pss with
  | nil =>
    intro i w hnd hlt hsub
    refine ⟨by simp [updateSlots], Nat.le_refl _, ?_, by simp [updateSlots], ?_⟩
    · intro e he
      simp [updateSlots] at he
    · intro e he
      simp [updateSlots] at he
  | cons ps rest ih =>
    intro i w hnd hlt hsub
    rw [List.flatten_cons] at hnd hlt hsub
    have hndp : ps.Nodup := (List.nodup_append.mp hnd).1
    have hndr : rest.flatten.Nodup := (List.nodup_append.mp hnd).2.1
    have hdisj : ∀ a ∈ ps, a ∉ rest.flatten := (List.nodup_append.mp hnd).2.2
    have hltp : ∀ e ∈ ps, e < w.nextId :=
      fun e he => hlt e (List.mem_append.mpr (Or.inl he))
    have hltr : ∀ e ∈ rest.flatten, e < w.nextId :=
      fun e he => hlt e (List.mem_append.mpr (Or.inr he))
    have hsubp : ∀ e ∈ ps, e ∈ w.live :=
      fun e he => hsub e (List.mem_append.mpr (Or.inl he))
    have hsubr : ∀ e ∈ rest.flatten, e ∈ w.live :=
      fun e he => hsub e (List.mem_append.mpr (Or.inr he))
    by_cases haff : ml.slotAffected info eqp i = true
    · have heq1 : updateSlots ml info eqp i w (ps :: rest)
          = ((updateSlots ml info eqp (i + 1)
                (allocN (despawnList w ps) ((ml.partCounts info eqp).getD i 0)).1 rest).1,
             (allocN (despawnList w ps) ((ml.partCounts info eqp).getD i 0)).2
               :: (updateSlots ml info eqp (i + 1)
                    (allocN (despawnList w ps) ((ml.partCounts info eqp).getD i 0)).1 rest).2) := by
        simp only [updateSlots, haff, if_true]
      set k := (ml.partCounts info eqp).getD i 0 with hk
      set w2 := (allocN (despawnList w ps) k).1 with hw2
      set fresh := (allocN (despawnList w ps) k).2 with hfresh
      have hw2live : w2.live = (w.live \ ps.toFinset) ∪ (List.range' w.nextId k).toFinset := by
        rw [hw2, allocN_live, despawnList_live, despawnList_nextId]
      have hw2n : w2.nextId = w.nextId + k := by
        rw [hw2, allocN_nextId, despawnList_nextId]
      have hfreshval : fresh = List.range' w.nextId k := by
        rw [hfresh, allocN_list, despawnList_nextId]
      have hfreshmem : ∀ e ∈ fresh, w.nextId ≤ e ∧ e < w.nextId + k := by
        intro e he
        rw [hfreshval] at he
        exact List.mem_range'_1.mp he
      obtain ⟨il, inx, ib, ind, io⟩ := ih (i + 1) w2 hndr
        (by intro e he; have := hltr e he; omega)
        (by
          intro e he
          rw [hw2live]
          refine Finset.mem_union_left _ ?_
          rw [Finset.mem_sdiff, List.mem_toFinset]
          exact ⟨hsubr e he, fun hp => hdisj e hp he⟩)
      have heqA : (updateSlots ml info eqp i w (ps :: rest)).1
          = (updateSlots ml info eqp (i + 1) w2 rest).1 := by rw [heq1]
      have heqB : (updateSlots ml info eqp i w (ps :: rest)).2
          = fresh :: (updateSlots ml info eqp (i + 1) w2 rest).2 := by rw [heq1]
      refine ⟨?_, ?_, ?_, ?_, ?_⟩
      · rw [heqA, heqB, il, hw2live]
        ext x
        simp only [Finset.mem_union, Finset.mem_sdiff, List.mem_toFinset, List.flatten_cons,
          List.mem_append, hfreshval]
        have hx1 : x ∈ List.range' w.nextId k → x ∉ rest.flatten := by
          intro hf hr
          have h3 := List.mem_range'_1.mp hf
          have h4 := hltr x hr
          omega
        tauto
      · rw [heqA]
        omega
      · rw [heqA, heqB]
        intro e he
        rw [List.flatten_cons, List.mem_append] at he
        rcases he with he | he
        · obtain ⟨t1, t2⟩ := hfreshmem e he
          omega
        · exact ib e he
      · rw [heqB, List.flatten_cons, List.nodup_append]
        refine ⟨by rw [hfreshval]; exact List.nodup_range' w.nextId k, ind, ?_⟩
        intro a ha hb
        obtain ⟨t1, t2⟩ := hfreshmem a ha
        rcases io a hb with ho | hge
        · have := hltr a ho
          omega
        · omega
      · rw [heqB]
        intro e he
        rw [List.flatten_cons, List.mem_append] at he
        rcases he with he | he
        · exact Or.inr (hfreshmem e he).1
        · rcases io e he with ho | hge
          · exact Or.inl (List.mem_append.mpr (Or.inr ho))
          · exact Or.inr (by omega)
    · have haff2 : ml.slotAffected info eqp i = false := by
        revert haff
        cases ml.slotAffected info eqp i <;> simp
      have heq1 : updateSlots ml info eqp i w (ps :: rest)
          = ((updateSlots ml info eqp (i + 1) w rest).1,
             ps :: (updateSlots ml info eqp (i + 1) w rest).2) := by
        simp only [updateSlots, haff2, Bool.false_eq_true, if_false]
      obtain ⟨il, inx, ib, ind, io⟩ := ih (i + 1) w hndr hltr hsubr
      have heqA : (updateSlots ml info eqp i w (ps :: rest)).1
          = (updateSlots ml info eqp (i + 1) w rest).1 := by rw [heq1]
      have heqB : (updateSlots ml info eqp i w (ps :: rest)).2
          = ps :: (updateSlots ml info eqp (i + 1) w rest).2 := by rw [heq1]
      refine ⟨?_, ?_, ?_, ?_, ?_⟩
      · rw [heqA, heqB, il]
        ext x
        simp only [Finset.mem_union, Finset.mem_sdiff, List.mem_toFinset, List.flatten_cons,
          List.mem_append]
        have hx1 : x ∈ ps → x ∈ w.live := hsubp x
        have hx2 : x ∈ ps → x ∉ rest.flatten := hdisj x
        tauto
      · rw [heqA]
        omega
      · rw [heqA, heqB]
        intro e he
        rw [List.flatten_cons, List.mem_append] at he
        rcases he with he | he
        · have := hltp e he
          omega
        · exact ib e he
      · rw [heqB, List.flatten_cons, List.nodup_append]
        refine ⟨hndp, ind, ?_⟩
        intro a ha hb
        rcases io a hb with ho | hge
        · exact hdisj a ha ho
        · have := hltp a ha
          omega
      · rw [heqB]
        intro e he
        rw [List.flatten_cons, List.mem_append] at he
        rcases he with he | he
        · exact Or.inl (List.mem_append.mpr (Or.inl he))
        · rcases io e he with ho | hge
          · exact Or.inl (List.mem_append.mpr (Or.inr ho))
          · exact Or.inr hge

theorem rigInv_teardown (w : EcsWorld) (c : CharState)
    (hlive : w.live = refSet c) :
    RigInv ⟨despawnList (despawnList w (partsRef c)) (jointsRef c),
            { c with collider := false, blinkTimer := false, characterModel := none,
                     skinnedMesh := none, dummyBoneOffset := none }⟩ := by
  refine ⟨⟨?_, ?_, ?_, ?_⟩, ?_⟩
  · rw [despawnList_live, despawnList_live, hlive]
    have h1 : refSet c = (partsRef c ++ jointsRef c).toFinset := rfl
    rw [h1]
    ext x
    simp only [Finset.mem_sdiff, List.mem_toFinset, List.mem_append, refSet, refList,
      partsRef, jointsRef, List.toFinset_nil, Finset.not_mem_empty, List.not_mem_nil,
      List.nil_append, iff_false, not_and, not_not]
    tauto
  · simp [refList, partsRef, jointsRef]
  · intro e he
    simp [refList, partsRef, jointsRef] at he
  · intro h1
    rfl
  · intro h1
    exact ⟨rfl, rfl⟩

theorem rigInv_spawn (ml : ModelLoader) (w : EcsWorld) (info : CharacterInfo)
    (eqp : Equipment) (c2 : CharState) (hw : w.live = ∅)
    (hcm : c2.characterModel = some (spawnCharacterModel ml w info eqp).characterModel)
    (hsm : c2.skinnedMesh = some (spawnCharacterModel ml w info eqp).skinnedMesh)
    (hps : c2.personalStore = none) :
    RigInv ⟨(spawnCharacterModel ml w info eqp).world, c2⟩ := by
  obtain ⟨sl, sb, snd, sn, sg⟩ := spawnCharacterModel_spec ml w info eqp _ rfl
  have hrl : refList c2
      = (spawnCharacterModel ml w info eqp).characterModel.modelParts.flatten
        ++ (spawnCharacterModel ml w info eqp).skinnedMesh.joints := by
    rw [refList, partsRef, jointsRef, hcm, hsm]
  refine ⟨⟨?_, ?_, ?_, ?_⟩, ?_⟩
  · rw [sl, hw, refSet, hrl, Finset.empty_union]
  · rw [hrl]
    exact snd
  · intro e he
    rw [hrl] at he
    exact (sb e he).2
  · intro h1
    rw [hcm] at h1
    cases h1
  · intro h1
    rw [hps] at h1
    cases h1

theorem rigInv_update_core (ml : ModelLoader) (w : EcsWorld) (info : CharacterInfo)
    (eqp : Equipment) (m : CharacterModel) (jl : List Nat)
    (hlive : w.live = (m.modelParts.flatten ++ jl).toFinset)
    (hnd : (m.modelParts.flatten ++ jl).Nodup)
    (hbnd : ∀ e ∈ m.modelParts.flatten ++ jl, e < w.nextId) :
    (updateCharacterEquipment ml w info eqp m).1.live
        = ((updateCharacterEquipment ml w info eqp m).2.modelParts.flatten ++ jl).toFinset
    ∧ ((updateCharacterEquipment ml w info eqp m).2.modelParts.flatten ++ jl).Nodup
    ∧ (∀ e ∈ (updateCharacterEquipment ml w info eqp m).2.modelParts.flatten ++ jl,
        e < (updateCharacterEquipment ml w info eqp m).1.nextId) := by
  have hndp : m.modelParts.flatten.Nodup := (List.nodup_append.mp hnd).1
  have hndj : jl.Nodup := (List.nodup_append.mp hnd).2.1
  have hdisj : ∀ a ∈ m.modelParts.flatten, a ∉ jl := (List.nodup_append.mp hnd).2.2
  have hbndp : ∀ e ∈ m.modelParts.flatten, e < w.nextId :=
    fun e he => hbnd e (List.mem_append.mpr (Or.inl he))
  have hbndj : ∀ e ∈ jl, e < w.nextId :=
    fun e he => hbnd e (List.mem_append.mpr (Or.inr he))
  have hsubp : ∀ e ∈ m.modelParts.flatten, e ∈ w.live := by
    intro e he
    rw [hlive, List.mem_toFinset, List.mem_append]
    exact Or.inl he
  obtain ⟨ul, un, ub, und, uo⟩ :=
    updateSlots_spec ml info eqp m.modelParts 0 w hndp hbndp hsubp
  have hparts2 : (updateCharacterEquipment ml w info eqp m).2.modelParts
      = (updateSlots ml info eqp 0 w m.modelParts).2 := rfl
  have hw2 : (updateCharacterEquipment ml w info eqp m).1
      = (updateSlots ml info eqp 0 w m.modelParts).1 := rfl
  refine ⟨?_, ?_, ?_⟩
  · rw [hw2, hparts2, ul, hlive]
    ext x
    simp only [Finset.mem_union, Finset.mem_sdiff, List.mem_toFinset, List.mem_append]
    have hx1 : x ∈ jl → x ∉ m.modelParts.flatten := fun hj hp => hdisj x hp hj
    tauto
  · rw [hparts2, List.nodup_append]
    refine ⟨und, hndj, ?_⟩
    intro a ha hb
    rcases uo a ha with ho | hge
    · exact hdisj a ho hb
    · have := hbndj a hb
      omega
  · rw [hw2, hparts2]
    intro e he
    rw [List.mem_append] at he
    rcases he with he | he
    · exact ub e he
    · have := hbndj e he
      omega

theorem processChanged_rigInv (ml : ModelLoader) (s : CharStep) (h : RigInvCore s) :
    RigInv (processChanged ml s) := by
  obtain ⟨w, c⟩ := s
  obtain ⟨hlive, hnd, hbnd, hms⟩ := h
  obtain ⟨info, eqp, cm, dbo, sm, pstore, mh, col, blink⟩ := c
  rcases pstore with _ | u
  · rcases cm with _ | m
    · -- no storefront, no model yet: fresh spawn
      have hsm0 : sm = none := hms rfl
      subst hsm0
      have heq : processChanged ml ⟨w, ⟨info, eqp, none, dbo, none, none, mh, col, blink⟩⟩
          = ⟨(spawnCharacterModel ml w info eqp).world,
             ⟨info, eqp, some (spawnCharacterModel ml w info eqp).characterModel,
              some (spawnCharacterModel ml w info eqp).dummyBoneOffset,
              some (spawnCharacterModel ml w info eqp).skinnedMesh,
              none, mh, false, true⟩⟩ := rfl
      rw [heq]
      refine rigInv_spawn ml w info eqp _ ?_ rfl rfl rfl
      rw [hlive]
      simp [refSet, refList, partsRef, jointsRef]
    · -- no storefront, existing model
      have heqIf : processChanged ml ⟨w, ⟨info, eqp, some m, dbo, sm, none, mh, col, blink⟩⟩
          = (if info.gender = m.gender then
              (⟨(updateCharacterEquipment ml w info eqp m).1,
                ⟨info, eqp, some (updateCharacterEquipment ml w info eqp m).2, dbo, sm,
                 none, none, false, blink⟩⟩ : CharStep)
            else
              ⟨(spawnCharacterModel ml
                  (despawnList (despawnList w m.modelParts.flatten)
                    (jointsRef ⟨info, eqp, some m, dbo, sm, none, mh, col, blink⟩))
                  info eqp).world,
               ⟨info, eqp,
                some (spawnCharacterModel ml
                  (despawnList (despawnList w m.modelParts.flatten)
                    (jointsRef ⟨info, eqp, some m, dbo, sm, none, mh, col, blink⟩))
                  info eqp).characterModel,
                some (spawnCharacterModel ml
                  (despawnList (despawnList w m.modelParts.flatten)
                    (jointsRef ⟨info, eqp, some m, dbo, sm, none, mh, col, blink⟩))
                  info eqp).dummyBoneOffset,
                some (spawnCharacterModel ml
                  (despawnList (despawnList w m.modelParts.flatten)
                    (jointsRef ⟨info, eqp, some m, dbo, sm, none, mh, col, blink⟩))
                  info eqp).skinnedMesh,
                none, mh, false, true⟩⟩) := by
        rcases sm with _ | smv <;> rfl
      rw [heqIf]
      by_cases hg : info.gender = m.gender
      · rw [if_pos hg]
        obtain ⟨r1, r2, r3⟩ := rigInv_update_core ml w info eqp m
          (jointsRef ⟨info, eqp, some m, dbo, sm, none, mh, col, blink⟩) hlive hnd hbnd
        refine ⟨⟨?_, ?_, ?_, ?_⟩, ?_⟩
        · exact r1
        · exact r2
        · exact r3
        · intro hx
          simp at hx
        · intro hx
          simp at hx
      · rw [if_neg hg]
        refine rigInv_spawn ml _ info eqp _ ?_ rfl rfl rfl
        rw [despawnList_live, despawnList_live, hlive]
        have h1 : refSet ⟨info, eqp, some m, dbo, sm, none, mh, col, blink⟩
            = (m.modelParts.flatten
               ++ jointsRef ⟨info, eqp, some m, dbo, sm, none, mh, col, blink⟩).toFinset := rfl
        rw [h1]
        ext x
        simp only [Finset.mem_sdiff, List.mem_toFinset, List.mem_append,
          Finset.not_mem_empty, iff_false, not_and, not_not]
        tauto
  · -- storefront open: teardown
    have heq : processChanged ml ⟨w, ⟨info, eqp, cm, dbo, sm, some u, mh, col, blink⟩⟩
        = ⟨despawnList
             (despawnList w (partsRef ⟨info, eqp, cm, dbo, sm, some u, mh, col, blink⟩))
             (jointsRef ⟨info, eqp, cm, dbo, sm, some u, mh, col, blink⟩),
           ⟨info, eqp, none, none, none, some u, mh, false, false⟩⟩ := by
      rcases cm with _ | m <;> rcases sm with _ | smv <;> rfl
    rw [heq]
    exact rigInv_teardown w ⟨info, eqp, cm, dbo, sm, some u, mh, col, blink⟩ hlive

theorem processRemoved_rigInv (ml : ModelLoader) (s : CharStep) (h : RigInvCore s)
    (hcm : s.char.characterModel = none) (hsm : s.char.skinnedMesh = none) :
    RigInv (processRemoved ml s) := by
  obtain ⟨w, c⟩ := s
  obtain ⟨hlive, hnd, hbnd, hms⟩ := h
  obtain ⟨info, eqp, cm, dbo, sm, pstore, mh, col, blink⟩ := c
  simp only at hcm hsm
  subst hcm
  subst hsm
  rcases pstore with _ | u
  · have heq : processRemoved ml ⟨w, ⟨info, eqp, none, dbo, none, none, mh, col, blink⟩⟩
        = ⟨(spawnCharacterModel ml w info eqp).world,
           ⟨info, eqp, some (spawnCharacterModel ml w info eqp).characterModel,
            some (spawnCharacterModel ml w info eqp).dummyBoneOffset,
            some (spawnCharacterModel ml w info eqp).skinnedMesh,
            none, none, false, true⟩⟩ := rfl
    rw [heq]
    refine rigInv_spawn ml w info eqp _ ?_ rfl rfl rfl
    rw [hlive]
    simp [refSet, refList, partsRef, jointsRef]
  · have heq : processRemoved ml ⟨w, ⟨info, eqp, none, dbo, none, some u, mh, col, blink⟩⟩
        = ⟨w, ⟨info, eqp, none, dbo, none, some u, mh, col, blink⟩⟩ := rfl
    rw [heq]
    exact ⟨⟨hlive, hnd, hbnd, hms⟩, fun _ => ⟨rfl, rfl⟩⟩

theorem stepOp_rigInv (ml : ModelLoader) (op : ModelOp) (s : CharStep) (h : RigInv s) :
    RigInv (stepOp ml op s) := by
  obtain ⟨⟨hlive, hnd, hbnd, hms⟩, hstore⟩ := h
  obtain ⟨w, c⟩ := s
  cases op with
  | setInfo info =>
    have heq : stepOp ml (ModelOp.setInfo info) ⟨w, c⟩
        = processChanged ml ⟨w, { c with characterInfo := info }⟩ := rfl
    rw [heq]
    exact processChanged_rigInv ml _ ⟨hlive, hnd, hbnd, hms⟩
  | setEquipment eqp =>
    have heq : stepOp ml (ModelOp.setEquipment eqp) ⟨w, c⟩
        = processChanged ml ⟨w, { c with equipment := eqp }⟩ := rfl
    rw [heq]
    exact processChanged_rigInv ml _ ⟨hlive, hnd, hbnd, hms⟩
  | openStore =>
    have heq : stepOp ml ModelOp.openStore ⟨w, c⟩
        = processChanged ml ⟨w, { c with personalStore := some () }⟩ := rfl
    rw [heq]
    exact processChanged_rigInv ml _ ⟨hlive, hnd, hbnd, hms⟩
  | closeStore =>
    by_cases hps : c.personalStore.isSome = true
    · have heq : stepOp ml ModelOp.closeStore ⟨w, c⟩
          = processRemoved ml ⟨w, { c with personalStore := none }⟩ := by
        unfold stepOp
        rw [if_pos hps]
        rfl
      rw [heq]
      exact processRemoved_rigInv ml _ ⟨hlive, hnd, hbnd, hms⟩
        (hstore hps).1 (hstore hps).2
    · have heq : stepOp ml ModelOp.closeStore ⟨w, c⟩ = ⟨w, c⟩ := by
        unfold stepOp
        rw [if_neg hps]
      rw [heq]
      exact ⟨⟨hlive, hnd, hbnd, hms⟩, hstore⟩

theorem runOps_rigInv (ml : ModelLoader) (ops : List ModelOp) :
    ∀ s : CharStep, RigInv s → RigInv (runOps ml ops s) := by
  induction ops with
  | nil => intro s h; exact h
  | cons op ops ih =>
    intro s h
    have heq : runOps ml (op :: ops) s = runOps ml ops (stepOp ml op s) := rfl
    rw [heq]
    exact ih _ (stepOp_rigInv ml op s h)

theorem rigInv_init (info : CharacterInfo) (eqp : Equipment) :
    RigInv (initStep info eqp) := by
  refine ⟨⟨?_, ?_, ?_, ?_⟩, ?_⟩ <;>
    simp [initStep, refSet, refList, partsRef, jointsRef]

/-- Claim C1: for every sequence of identity, equipment, and storefront
toggles applied to a single character (including the explicit
storefront-removal notifications), after the synchronizer has processed
them the set of live child entities belonging to the character's rig is
exactly the set referenced by its current `PartSet` (`CharacterModel`) and
`Skeleton` (`SkinnedMesh`): no despawned-but-still-referenced entity
remains and no spawned entity is left unreferenced. -/
theorem character_model_no_leak (ml : ModelLoader) (info : CharacterInfo)
    (eqp : Equipment) (ops : List ModelOp) :
    (runOps ml ops (initStep info eqp)).world.live
      = refSet (runOps ml ops (initStep info eqp)).char :=
  (runOps_rigInv ml ops _ (rigInv_init info eqp)).1.1

/-- Claim C2: one tick of the synchronizer on a character with an active
storefront despawns all of its rig part and bone entities, removes the rig
components and the hit-collider, and builds no new rig (no entity gets
allocated) while the storefront is open; when the storefront component is
removed, the next tick builds a fresh rig even though identity and
equipment never changed while shopping. -/
theorem storefront_suppresses_rig (ml : ModelLoader) (s : CharStep)
    (hstore : s.char.personalStore.isSome = true) (hinv : RigInvCore s) :
    (processChanged ml s).world.live = ∅
    ∧ (processChanged ml s).char.characterModel = none
    ∧ (processChanged ml s).char.skinnedMesh = none
    ∧ (processChanged ml s).char.dummyBoneOffset = none
    ∧ (processChanged ml s).char.collider = false
    ∧ (processChanged ml s).world.nextId = s.world.nextId
    ∧ (stepOp ml ModelOp.closeStore (processChanged ml s)).char.characterModel.isSome = true
    ∧ (stepOp ml ModelOp.closeStore (processChanged ml s)).char.skinnedMesh.isSome = true
    ∧ (stepOp ml ModelOp.closeStore (processChanged ml s)).world.live
        = refSet (stepOp ml ModelOp.closeStore (processChanged ml s)).char := by
  obtain ⟨w, c⟩ := s
  obtain ⟨hlive, hnd, hbnd, hms⟩ := hinv
  obtain ⟨info, eqp, cm, dbo, sm, pstore, mh, col, blink⟩ := c
  rcases pstore with _ | u
  · simp at hstore
  · have heq : processChanged ml ⟨w, ⟨info, eqp, cm, dbo, sm, some u, mh, col, blink⟩⟩
        = ⟨despawnList
             (despawnList w (partsRef ⟨info, eqp, cm, dbo, sm, some u, mh, col, blink⟩))
             (jointsRef ⟨info, eqp, cm, dbo, sm, some u, mh, col, blink⟩),
           ⟨info, eqp, none, none, none, some u, mh, false, false⟩⟩ := by
      rcases cm with _ | m <;> rcases sm with _ | smv <;> rfl
    have hempty : (despawnList
        (despawnList w (partsRef ⟨info, eqp, cm, dbo, sm, some u, mh, col, blink⟩))
        (jointsRef ⟨info, eqp, cm, dbo, sm, some u, mh, col, blink⟩)).live = ∅ := by
      rw [despawnList_live, despawnList_live, hlive]
      have h1 : refSet ⟨info, eqp, cm, dbo, sm, some u, mh, col, blink⟩
          = (partsRef ⟨info, eqp, cm, dbo, sm, some u, mh, col, blink⟩
             ++ jointsRef ⟨info, eqp, cm, dbo, sm, some u, mh, col, blink⟩).toFinset := rfl
      rw [h1]
      ext x
      simp only [Finset.mem_sdiff, List.mem_toFinset, List.mem_append,
        Finset.not_mem_empty, iff_false, not_and, not_not]
      tauto
    have heq2 : stepOp ml ModelOp.closeStore
        ⟨despawnList
           (despawnList w (partsRef ⟨info, eqp, cm, dbo, sm, some u, mh, col, blink⟩))
           (jointsRef ⟨info, eqp, cm, dbo, sm, some u, mh, col, blink⟩),
         ⟨info, eqp, none, none, none, some u, mh, false, false⟩⟩
        = ⟨(spawnCharacterModel ml
              (despawnList
                (despawnList w (partsRef ⟨info, eqp, cm, dbo, sm, some u, mh, col, blink⟩))
                (jointsRef ⟨info, eqp, cm, dbo, sm, some u, mh, col, blink⟩)) info eqp).world,
           ⟨info, eqp,
            some (spawnCharacterModel ml
              (despawnList
                (despawnList w (partsRef ⟨info, eqp, cm, dbo, sm, some u, mh, col, blink⟩))
                (jointsRef ⟨info, eqp, cm, dbo, sm, some u, mh, col, blink⟩)) info eqp).characterModel,
            some (spawnCharacterModel ml
              (despawnList
                (despawnList w (partsRef ⟨info, eqp, cm, dbo, sm, some u, mh, col, blink⟩))
                (jointsRef ⟨info, eqp, cm, dbo, sm, some u, mh, col, blink⟩)) info eqp).dummyBoneOffset,
            some (spawnCharacterModel ml
              (despawnList
                (despawnList w (partsRef ⟨info, eqp, cm, dbo, sm, some u, mh, col, blink⟩))
                (jointsRef ⟨info, eqp, cm, dbo, sm, some u, mh, col, blink⟩)) info eqp).skinnedMesh,
            none, none, false, true⟩⟩ := rfl
    rw [heq, heq2]
    refine ⟨hempty, rfl, rfl, rfl, rfl, ?_, rfl, rfl, ?_⟩
    · rw [despawnList_nextId, despawnList_nextId]
    · exact (rigInv_spawn ml _ info eqp _ hempty rfl rfl rfl).1.1

/-- Witness for C2 at the sample storefront character. -/
theorem storefront_suppresses_rig_witness :
    (stepSampleStore.char.personalStore.isSome = true ∧ RigInvCore stepSampleStore)
    ∧ ((processChanged mlSample stepSampleStore).world.live = ∅
      ∧ (processChanged mlSample stepSampleStore).char.characterModel = none
      ∧ (processChanged mlSample stepSampleStore).char.skinnedMesh = none
      ∧ (processChanged mlSample stepSampleStore).char.dummyBoneOffset = none
      ∧ (processChanged mlSample stepSampleStore).char.collider = false
      ∧ (processChanged mlSample stepSampleStore).world.nextId = stepSampleStore.world.nextId
      ∧ (stepOp mlSample ModelOp.closeStore
          (processChanged mlSample stepSampleStore)).char.characterModel.isSome = true
      ∧ (stepOp mlSample ModelOp.closeStore
          (processChanged mlSample stepSampleStore)).char.skinnedMesh.isSome = true
      ∧ (stepOp mlSample ModelOp.closeStore
          (processChanged mlSample stepSampleStore)).world.live
          = refSet (stepOp mlSample ModelOp.closeStore
              (processChanged mlSample stepSampleStore)).char) :=
  ⟨⟨by decide, by decide⟩,
   storefront_suppresses_rig mlSample stepSampleStore (by decide) (by decide)⟩

/-- Claim C3: for a character with an existing rig and no storefront,
changing only the gender despawns every prior part and bone entity and
attaches an entirely new skeleton (no bone entity present before the
change is referenced afterwards); conversely, if the recorded body type
equals the current one the in-place path runs instead of a rebuild: the
skeleton component is untouched and every prior bone entity stays alive. -/
theorem body_type_change_forces_rebuild (ml : ModelLoader) (s : CharStep)
    (m : CharacterModel) (info2 : CharacterInfo)
    (hstore : s.char.personalStore = none)
    (hcm : s.char.characterModel = some m)
    (hinv : RigInvCore s) :
    (info2.gender ≠ m.gender →
      (∀ e ∈ refList s.char, e ∉ (stepOp ml (ModelOp.setInfo info2) s).world.live)
      ∧ ∃ sm2, (stepOp ml (ModelOp.setInfo info2) s).char.skinnedMesh = some sm2
          ∧ ∀ e ∈ jointsRef s.char, e ∉ sm2.joints)
    ∧ (info2.gender = m.gender →
      (stepOp ml (ModelOp.setInfo info2) s).char.skinnedMesh = s.char.skinnedMesh
      ∧ ∀ e ∈ jointsRef s.char, e ∈ (stepOp ml (ModelOp.setInfo info2) s).world.live) := by
  obtain ⟨w, c⟩ := s
  obtain ⟨hlive, hnd, hbnd, hms⟩ := hinv
  obtain ⟨info, eqp, cm, dbo, sm, pstore, mh, col, blink⟩ := c
  simp only at hstore hcm hlive hnd hbnd hms
  subst hstore
  subst hcm
  have heq0 : stepOp ml (ModelOp.setInfo info2)
      ⟨w, ⟨info, eqp, some m, dbo, sm, none, mh, col, blink⟩⟩
      = processChanged ml ⟨w, ⟨info2, eqp, some m, dbo, sm, none, mh, col, blink⟩⟩ := rfl
  rw [heq0]
  have heqIf : processChanged ml ⟨w, ⟨info2, eqp, some m, dbo, sm, none, mh, col, blink⟩⟩
      = (if info2.gender = m.gender then
          (⟨(updateCharacterEquipment ml w info2 eqp m).1,
            ⟨info2, eqp, some (updateCharacterEquipment ml w info2 eqp m).2, dbo, sm,
             none, none, false, blink⟩⟩ : CharStep)
        else
          ⟨(spawnCharacterModel ml
              (despawnList (despawnList w m.modelParts.flatten)
                (jointsRef ⟨info, eqp, some m, dbo, sm, none, mh, col, blink⟩))
              info2 eqp).world,
           ⟨info2, eqp,
            some (spawnCharacterModel ml
              (despawnList (despawnList w m.modelParts.flatten)
                (jointsRef ⟨info, eqp, some m, dbo, sm, none, mh, col, blink⟩))
              info2 eqp).characterModel,
            some (spawnCharacterModel ml
              (despawnList (despawnList w m.modelParts.flatten)
                (jointsRef ⟨info, eqp, some m, dbo, sm, none, mh, col, blink⟩))
              info2 eqp).dummyBoneOffset,
            some (spawnCharacterModel ml
              (despawnList (despawnList w m.modelParts.flatten)
                (jointsRef ⟨info, eqp, some m, dbo, sm, none, mh, col, blink⟩))
              info2 eqp).skinnedMesh,
            none, mh, false, true⟩⟩) := by
    rcases sm with _ | smv <;> rfl
  rw [heqIf]
  have hnid : (despawnList (despawnList w m.modelParts.flatten)
      (jointsRef ⟨info, eqp, some m, dbo, sm, none, mh, col, blink⟩)).nextId = w.nextId := by
    rw [despawnList_nextId, despawnList_nextId]
  constructor
  · intro hg
    rw [if_neg hg]
    obtain ⟨sl, sb, snd, sn, sg⟩ := spawnCharacterModel_spec ml
      (despawnList (despawnList w m.modelParts.flatten)
        (jointsRef ⟨info, eqp, some m, dbo, sm, none, mh, col, blink⟩)) info2 eqp _ rfl
    have hempty : (despawnList (despawnList w m.modelParts.flatten)
        (jointsRef ⟨info, eqp, some m, dbo, sm, none, mh, col, blink⟩)).live = ∅ := by
      rw [despawnList_live, despawnList_live, hlive]
      have h1 : refSet ⟨info, eqp, some m, dbo, sm, none, mh, col, blink⟩
          = (m.modelParts.flatten
             ++ jointsRef ⟨info, eqp, some m, dbo, sm, none, mh, col, blink⟩).toFinset := rfl
      rw [h1]
      ext x
      simp only [Finset.mem_sdiff, List.mem_toFinset, List.mem_append,
        Finset.not_mem_empty, iff_false, not_and, not_not]
      tauto
    constructor
    · intro e he hmem
      rw [sl, hempty] at hmem
      rcases Finset.mem_union.mp hmem with hx | hx
      · exact absurd hx (Finset.not_mem_empty e)
      · have h2 := (sb e (List.mem_toFinset.mp hx)).1
        have h3 := hbnd e he
        omega
    · refine ⟨(spawnCharacterModel ml
        (despawnList (despawnList w m.modelParts.flatten)
          (jointsRef ⟨info, eqp, some m, dbo, sm, none, mh, col, blink⟩))
        info2 eqp).skinnedMesh, rfl, ?_⟩
      intro e he hmem
      have h2 := (sb e (List.mem_append.mpr (Or.inr hmem))).1
      have h3 := hbnd e (List.mem_append.mpr (Or.inr he))
      omega
  · intro hg
    rw [if_pos hg]
    refine ⟨rfl, ?_⟩
    have hndp : m.modelParts.flatten.Nodup := (List.nodup_append.mp hnd).1
    have hdisj : ∀ a ∈ m.modelParts.flatten,
        a ∉ jointsRef ⟨info, eqp, some m, dbo, sm, none, mh, col, blink⟩ :=
      (List.nodup_append.mp hnd).2.2
    have hbndp : ∀ e ∈ m.modelParts.flatten, e < w.nextId :=
      fun e he => hbnd e (List.mem_append.mpr (Or.inl he))
    have hsubp : ∀ e ∈ m.modelParts.flatten, e ∈ w.live := by
      intro e he
      rw [hlive]
      exact List.mem_toFinset.mpr (List.mem_append.mpr (Or.inl he))
    obtain ⟨ul, un, ub, und, uo⟩ :=
      updateSlots_spec ml info2 eqp m.modelParts 0 w hndp hbndp hsubp
    intro e he
    have hw2 : (updateCharacterEquipment ml w info2 eqp m).1
        = (updateSlots ml info2 eqp 0 w m.modelParts).1 := rfl
    rw [hw2, ul]
    refine Finset.mem_union_left _ ?_
    rw [Finset.mem_sdiff]
    refine ⟨?_, ?_⟩
    · rw [hlive]
      exact List.mem_toFinset.mpr (List.mem_append.mpr (Or.inr he))
    · rw [List.mem_toFinset]
      intro hp
      exact hdisj e hp he

/-- Witness for C3 at the sample rig character: the gender is flipped. -/
theorem body_type_change_forces_rebuild_witness :
    (stepSampleRig.char.personalStore = none
      ∧ stepSampleRig.char.characterModel = some ⟨Gender.male, [[0], [1, 2]]⟩
      ∧ RigInvCore stepSampleRig)
    ∧ (((⟨Gender.female, 0⟩ : CharacterInfo).gender ≠ (⟨Gender.male, [[0], [1, 2]]⟩ : CharacterModel).gender →
        (∀ e ∈ refList stepSampleRig.char,
          e ∉ (stepOp mlSample (ModelOp.setInfo ⟨Gender.female, 0⟩) stepSampleRig).world.live)
        ∧ ∃ sm2, (stepOp mlSample (ModelOp.setInfo ⟨Gender.female, 0⟩)
              stepSampleRig).char.skinnedMesh = some sm2
            ∧ ∀ e ∈ jointsRef stepSampleRig.char, e ∉ sm2.joints)
      ∧ ((⟨Gender.female, 0⟩ : CharacterInfo).gender = (⟨Gender.male, [[0], [1, 2]]⟩ : CharacterModel).gender →
        (stepOp mlSample (ModelOp.setInfo ⟨Gender.female, 0⟩)
            stepSampleRig).char.skinnedMesh = stepSampleRig.char.skinnedMesh
        ∧ ∀ e ∈ jointsRef stepSampleRig.char,
            e ∈ (stepOp mlSample (ModelOp.setInfo ⟨Gender.female, 0⟩)
              stepSampleRig).world.live)) :=
  ⟨⟨by decide, by decide, by decide⟩,
   body_type_change_forces_rebuild mlSample stepSampleRig ⟨Gender.male, [[0], [1, 2]]⟩
     ⟨Gender.female, 0⟩ (by decide) (by decide) (by decide)⟩

theorem teardownRecorded_cons (w : EcsWorld) (a : Nat) (as : List Nat) :
    teardownRecorded w (a :: as) = teardownRecorded (despawnChecked w a) as := by
  have hstep : teardownRecorded w (a :: as)
      = List.foldl
          (fun acc e =>
            acc.bind fun wx => if e ∈ wx.live then despawnStrict wx e else some wx)
          (if a ∈ w.live then despawnStrict w a else some w) as := rfl
  rw [hstep]
  by_cases ha : a ∈ w.live
  · have h1 : (if a ∈ w.live then despawnStrict w a else some w)
        = some { w with live := w.live.erase a } := by
      rw [if_pos ha]
      exact if_pos ha
    have h2 : despawnChecked w a = { w with live := w.live.erase a } := if_pos ha
    rw [h1, h2]
    rfl
  · have h1 : (if a ∈ w.live then despawnStrict w a else some w) = some w := if_neg ha
    have h2 : despawnChecked w a = w := if_neg ha
    rw [h1, h2]
    rfl

/-- Claim C7: the teardown loop is total over arbitrary recorded child
references, stale ones included: the existence guard makes every despawn
of a missing entity a silent skip, so the strict (faulting) despawn is
never reached, and the loop computes the same world as the guarded fold
the synchronizer uses. -/
theorem teardown_tolerates_stale_references (w : EcsWorld) (es : List Nat) :
    teardownRecorded w es = some (despawnList w es)
    ∧ (teardownRecorded w es).isSome = true := by
  have h1 : ∀ w2 : EcsWorld, teardownRecorded w2 es = some (despawnList w2 es) := by
    induction es with
    | nil => intro w2; rfl
    | cons a as ih =>
      intro w2
      rw [teardownRecorded_cons]
      exact ih (despawnChecked w2 a)
  refine ⟨h1 w, ?_⟩
  rw [h1 w]
  rfl

/-- Claim C8: every path the synchronizer takes in reaction to a tracked
change — storefront-open teardown, in-place equipment update, full
rebuild, and storefront-close rebuild — removes the character's
hit-collider; it is never left attached across a visual change. -/
theorem collider_removed_on_all_paths (ml : ModelLoader) (s : CharStep) :
    (processChanged ml s).char.collider = false
    ∧ (s.char.personalStore = none → (processRemoved ml s).char.collider = false) := by
  obtain ⟨w, c⟩ := s
  obtain ⟨info, eqp, cm, dbo, sm, pstore, mh, col, blink⟩ := c
  constructor
  · rcases pstore with _ | u
    · rcases cm with _ | m
      · rfl
      · rcases sm with _ | smv <;>
          · simp only [processChanged]
            split
            · rfl
            · split <;> rfl
    · rcases cm with _ | m <;> rcases sm with _ | smv <;> rfl
  · intro hps
    rcases pstore with _ | u
    · rfl
    · cases hps

/-- Witness for C8 at the sample rig character (a gender-equal in-place
update for the changed-loop, and a storefront-close rebuild). -/
theorem collider_removed_on_all_paths_witness :
    (processChanged mlSample stepSampleRig).char.collider = false
    ∧ (stepSampleRig.char.personalStore = none
      → (processRemoved mlSample stepSampleRig).char.collider = false) :=
  collider_removed_on_all_paths mlSample stepSampleRig

theorem vehicleHeight_add_eq (ml : ModelLoader) (d : VehicleDriver)
    (tagY : Nat → Option ℚ) (ha : d.vehicleJustAdded = true)
    (hv : d.hasVehicle = true) (hs : (tagY d.nameTagEntity).isSome = true) :
    nameTagVehicleHeightSystem ml d tagY d.nameTagEntity
      = some (ml.driverSeatHeight d.equipment + d.modelHeight.getD (9 / 5)) := by
  obtain ⟨tag, eqp2, mhh, hveh, hadd, hrem⟩ := d
  simp only at ha hv hs ⊢
  subst ha
  subst hv
  rcases hy : tagY tag with _ | y
  · rw [hy] at hs
    cases hs
  · simp [nameTagVehicleHeightSystem, hy]

theorem vehicleHeight_remove_eq (ml : ModelLoader) (d : VehicleDriver)
    (tagY : Nat → Option ℚ) (h : ℚ) (hr : d.vehicleJustRemoved = true)
    (hv : d.hasVehicle = false) (hm : d.modelHeight = some h)
    (hs : (tagY d.nameTagEntity).isSome = true) :
    nameTagVehicleHeightSystem ml d tagY d.nameTagEntity = some h := by
  obtain ⟨tag, eqp2, mhh, hveh, hadd, hrem⟩ := d
  simp only at hr hv hm hs ⊢
  subst hr
  subst hv
  subst hm
  rcases hy : tagY tag with _ | y
  · rw [hy] at hs
    cases hs
  · simp [nameTagVehicleHeightSystem, hy]

/-- Claim C9: when a vehicle component is added to a character, the
name-tag anchor's vertical offset is set to the driver-seat height of the
equipment plus the character's standing model height, defaulting to 1.8
(= 9/5) when no height is recorded; when the vehicle component is removed,
the offset is restored to the recorded standing model height alone. -/
theorem vehicle_height_update (ml : ModelLoader) (d : VehicleDriver)
    (tagY : Nat → Option ℚ) :
    (d.vehicleJustAdded = true → d.hasVehicle = true →
      (tagY d.nameTagEntity).isSome = true →
      nameTagVehicleHeightSystem ml d tagY d.nameTagEntity
        = some (ml.driverSeatHeight d.equipment + d.modelHeight.getD (9 / 5)))
    ∧ (∀ h : ℚ, d.vehicleJustRemoved = true → d.hasVehicle = false →
      d.modelHeight = some h → (tagY d.nameTagEntity).isSome = true →
      nameTagVehicleHeightSystem ml d tagY d.nameTagEntity = some h) :=
  ⟨fun ha hv hs => vehicleHeight_add_eq ml d tagY ha hv hs,
   fun h hr hv hm hs => vehicleHeight_remove_eq ml d tagY h hr hv hm hs⟩

/-- Witness for C9: a mount-begin with recorded height 3/2 on seat height
2, and a mount-end restoring 3/2. -/
theorem vehicle_height_update_witness :
    (tagYSample 7).isSome = true
    ∧ nameTagVehicleHeightSystem mlSample ⟨7, 0, some (3 / 2), true, true, false⟩
        tagYSample 7 = some (2 + 3 / 2)
    ∧ nameTagVehicleHeightSystem mlSample ⟨7, 0, some (3 / 2), false, false, true⟩
        tagYSample 7 = some (3 / 2) :=
  ⟨by decide,
   (vehicle_height_update mlSample ⟨7, 0, some (3 / 2), true, true, false⟩ tagYSample).1
     rfl rfl (by decide),
   (vehicle_height_update mlSample ⟨7, 0, some (3 / 2), false, false, true⟩ tagYSample).2
     (3 / 2) rfl rfl rfl (by decide)⟩

/-- Claim C10: the in-place update path (same body type) removes the
recorded `ModelHeight` in addition to the hit-collider; consequently a
mount-begin occurring before the height is recomputed uses the 1.8 (= 9/5)
default standing height rather than the previously recorded height. -/
theorem inplace_update_resets_model_height (ml : ModelLoader) (s : CharStep)
    (m : CharacterModel)
    (hstore : s.char.personalStore = none)
    (hcm : s.char.characterModel = some m)
    (hg : s.char.characterInfo.gender = m.gender) :
    (processChanged ml s).char.collider = false
    ∧ (processChanged ml s).char.modelHeight = none
    ∧ ∀ (tag : Nat) (eqp2 : Equipment) (tagY : Nat → Option ℚ),
        (tagY tag).isSome = true →
        nameTagVehicleHeightSystem ml
          ⟨tag, eqp2, (processChanged ml s).char.modelHeight, true, true, false⟩ tagY tag
          = some (ml.driverSeatHeight eqp2 + 9 / 5) := by
  obtain ⟨w, c⟩ := s
  obtain ⟨info, eqp, cm, dbo, sm, pstore, mh, col, blink⟩ := c
  simp only at hstore hcm hg
  subst hstore
  subst hcm
  have heqIf : processChanged ml ⟨w, ⟨info, eqp, some m, dbo, sm, none, mh, col, blink⟩⟩
      = (if info.gender = m.gender then
          (⟨(updateCharacterEquipment ml w info eqp m).1,
            ⟨info, eqp, some (updateCharacterEquipment ml w info eqp m).2, dbo, sm,
             none, none, false, blink⟩⟩ : CharStep)
        else
          ⟨(spawnCharacterModel ml
              (despawnList (despawnList w m.modelParts.flatten)
                (jointsRef ⟨info, eqp, some m, dbo, sm, none, mh, col, blink⟩))
              info eqp).world,
           ⟨info, eqp,
            some (spawnCharacterModel ml
              (despawnList (despawnList w m.modelParts.flatten)
                (jointsRef ⟨info, eqp, some m, dbo, sm, none, mh, col, blink⟩))
              info eqp).characterModel,
            some (spawnCharacterModel ml
              (despawnList (despawnList w m.modelParts.flatten)
                (jointsRef ⟨info, eqp, some m, dbo, sm, none, mh, col, blink⟩))
              info eqp).dummyBoneOffset,
            some (spawnCharacterModel ml
              (despawnList (despawnList w m.modelParts.flatten)
                (jointsRef ⟨info, eqp, some m, dbo, sm, none, mh, col, blink⟩))
              info eqp).skinnedMesh,
            none, mh, false, true⟩⟩) := by
    rcases sm with _ | smv <;> rfl
  rw [heqIf, if_pos hg]
  refine ⟨rfl, rfl, ?_⟩
  intro tag eqp2 tagY hs
  exact vehicleHeight_add_eq ml ⟨tag, eqp2, none, true, true, false⟩ tagY rfl rfl hs

/-- Witness for C10: an equipment-only change on the sample rig character
(recorded height 1) followed by a mount-begin using the 9/5 default. -/
theorem inplace_update_resets_model_height_witness :
    (stepSampleRig.char.personalStore = none
      ∧ stepSampleRig.char.characterModel = some ⟨Gender.male, [[0], [1, 2]]⟩
      ∧ stepSampleRig.char.characterInfo.gender
          = (⟨Gender.male, [[0], [1, 2]]⟩ : CharacterModel).gender)
    ∧ (processChanged mlSample stepSampleRig).char.collider = false
    ∧ (processChanged mlSample stepSampleRig).char.modelHeight = none
    ∧ nameTagVehicleHeightSystem mlSample
        ⟨7, 0, (processChanged mlSample stepSampleRig).char.modelHeight, true, true, false⟩
        tagYSample 7
        = some (mlSample.driverSeatHeight 0 + 9 / 5) :=
  have h := inplace_update_resets_model_height mlSample stepSampleRig
    ⟨Gender.male, [[0], [1, 2]]⟩ (by decide) (by decide) (by decide)
  ⟨⟨by decide, by decide, by decide⟩, h.1, h.2.1, h.2.2 7 0 tagYSample (by decide)⟩

theorem setVisibility_isSome (vis : VisMap) (e : Nat) (v : Visibility) (x : Nat) :
    (setVisibility vis e v x).isSome = (vis x).isSome := by
  unfold setVisibility
  rcases hve : vis e with _ | v0
  · rfl
  · by_cases hx : x = e
    · subst hx
      simp [hve]
    · simp [hx]

theorem setVisibility_ne (vis : VisMap) (e : Nat) (v : Visibility) (x : Nat)
    (hx : x ≠ e) : setVisibility vis e v x = vis x := by
  unfold setVisibility
  rcases vis e with _ | v0
  · rfl
  · simp [hx]

theorem setVisibility_self (vis : VisMap) (e : Nat) (v : Visibility)
    (hv : (vis e).isSome = true) : setVisibility vis e v e = some v := by
  unfold setVisibility
  rcases hve : vis e with _ | v0
  · rw [hve] at hv
    cases hv
  · simp

theorem applyVisRule_isSome (rule : Nat → Option Visibility) (vis : VisMap)
    (c : Nat) (x : Nat) : (applyVisRule rule vis c x).isSome = (vis x).isSome := by
  unfold applyVisRule
  rcases rule c with _ | v
  · rfl
  · exact setVisibility_isSome vis c v x

theorem applyVisRule_ne (rule : Nat → Option Visibility) (vis : VisMap)
    (c : Nat) (x : Nat) (hx : x ≠ c) : applyVisRule rule vis c x = vis x := by
  unfold applyVisRule
  rcases rule c with _ | v
  · rfl
  · exact setVisibility_ne vis c v x hx

theorem foldVisUpdates_isSome (rule : Nat → Option Visibility) (l : List Nat) :
    ∀ (vis : VisMap) (x : Nat),
      (foldVisUpdates rule l vis x).isSome = (vis x).isSome := by
  induction l with
  | nil => intro vis x; rfl
  | cons a as ih =>
    intro vis x
    have hstep : foldVisUpdates rule (a :: as) vis
        = foldVisUpdates rule as (applyVisRule rule vis a) := rfl
    rw [hstep, ih]
    exact applyVisRule_isSome rule vis a x

theorem foldVisUpdates_not_mem (rule : Nat → Option Visibility) (l : List Nat) :
    ∀ (vis : VisMap) (x : Nat), x ∉ l → foldVisUpdates rule l vis x = vis x := by
  induction l with
  | nil => intro vis x _; rfl
  | cons a as ih =>
    intro vis x hx
    have h1 : x ≠ a := fun h => hx (h ▸ List.mem_cons_self a as)
    have h2 : x ∉ as := fun h => hx (List.mem_cons_of_mem a h)
    have hstep : foldVisUpdates rule (a :: as) vis
        = foldVisUpdates rule as (applyVisRule rule vis a) := rfl
    rw [hstep, ih _ x h2]
    exact applyVisRule_ne rule vis a x h1

theorem foldVisUpdates_mem_some (rule : Nat → Option Visibility) (l : List Nat) :
    ∀ (vis : VisMap) (x : Nat) (v : Visibility), x ∈ l → rule x = some v →
      (vis x).isSome = true → foldVisUpdates rule l vis x = some v := by
  induction l with
  | nil =>
    intro vis x v hx
    cases hx
  | cons a as ih =>
    intro vis x v hx hr hv
    have hstep : foldVisUpdates rule (a :: as) vis
        = foldVisUpdates rule as (applyVisRule rule vis a) := rfl
    rw [hstep]
    by_cases hxa : x ∈ as
    · refine ih _ x v hxa hr ?_
      rw [applyVisRule_isSome]
      exact hv
    · have hax : x = a := by
        rcases List.mem_cons.mp hx with h | h
        · exact h
        · exact absurd h hxa
      subst hax
      rw [foldVisUpdates_not_mem rule as _ x hxa]
      unfold applyVisRule
      rw [hr]
      exact setVisibility_self vis x v hv

theorem forceVisible_isSome (t : Option Nat) (vis : VisMap) (x : Nat) :
    (forceVisible t vis x).isSome = (vis x).isSome := by
  rcases t with _ | e
  · rfl
  · exact setVisibility_isSome vis e .inherited x

theorem restoreHoverVis_isSome (w : NtWorld) (settings : NameTagSettings)
    (prev : Option Nat) (vis : VisMap) (x : Nat) :
    (restoreHoverVis w settings prev vis x).isSome = (vis x).isSome := by
  rcases prev with _ | p
  · rfl
  · rcases htp : w.nameTags p with _ | tag
    · simp only [restoreHoverVis, htp]
    · simp only [restoreHoverVis, htp]
      exact setVisibility_isSome vis p _ x

theorem restoreSelectedVis_isSome (w : NtWorld) (settings : NameTagSettings)
    (prev : Option Nat) (vis : VisMap) (x : Nat) :
    (restoreSelectedVis w settings prev vis x).isSome = (vis x).isSome := by
  rcases prev with _ | p
  · rfl
  · rcases htp : w.nameTags p with _ | tag
    · simp only [restoreSelectedVis, htp]
    · simp only [restoreSelectedVis, htp]
      rw [foldVisUpdates_isSome]
      exact setVisibility_isSome vis p _ x

theorem restoreHoverVis_self (w : NtWorld) (settings : NameTagSettings)
    (p : Nat) (vis : VisMap) (tag : NameTagData)
    (htag : w.nameTags p = some tag) (hv : (vis p).isSome = true) :
    restoreHoverVis w settings (some p) vis p
      = some (defaultVisibility w settings p tag) := by
  simp only [restoreHoverVis, htag]
  exact setVisibility_self vis p _ hv

theorem restoreHoverVis_other (w : NtWorld) (settings : NameTagSettings)
    (p : Nat) (vis : VisMap) (x : Nat) (hxp : x ≠ p) :
    restoreHoverVis w settings (some p) vis x = vis x := by
  rcases htp : w.nameTags p with _ | tag
  · simp only [restoreHoverVis, htp]
  · simp only [restoreHoverVis, htp]
    exact setVisibility_ne vis p _ x hxp

theorem restoreSelectedVis_self (w : NtWorld) (settings : NameTagSettings)
    (p : Nat) (vis : VisMap) (tag : NameTagData)
    (htag : w.nameTags p = some tag) (hv : (vis p).isSome = true)
    (hp : p ∉ tag.children) :
    restoreSelectedVis w settings (some p) vis p
      = some (defaultVisibility w settings p tag) := by
  simp only [restoreSelectedVis, htag]
  rw [foldVisUpdates_not_mem _ _ _ p hp]
  exact setVisibility_self vis p _ hv

theorem restoreSelectedVis_other (w : NtWorld) (settings : NameTagSettings)
    (p : Nat) (vis : VisMap) (x : Nat) (tag : NameTagData)
    (htag : w.nameTags p = some tag) (hxp : x ≠ p) (hxc : x ∉ tag.children) :
    restoreSelectedVis w settings (some p) vis x = vis x := by
  simp only [restoreSelectedVis, htag]
  rw [foldVisUpdates_not_mem _ _ _ x hxc]
  exact setVisibility_ne vis p _ x hxp

theorem applySelectedVis_anchor (w : NtWorld) (e : Nat) (vis : VisMap)
    (tag : NameTagData) (htag : w.nameTags e = some tag)
    (hv : (vis e).isSome = true) (he : e ∉ tag.children) :
    applySelectedVis w (some e) vis e = some Visibility.inherited := by
  simp only [applySelectedVis, htag]
  rw [foldVisUpdates_not_mem _ _ _ e he]
  exact setVisibility_self vis e _ hv

theorem applySelectedVis_child (w : NtWorld) (e : Nat) (vis : VisMap)
    (tag : NameTagData) (c : Nat) (htag : w.nameTags e = some tag)
    (hc : c ∈ tag.children) (hv : (vis c).isSome = true) :
    applySelectedVis w (some e) vis c
      = some (selectedChildRule w (isStoreNameTag w e) tag.nameTagType c) := by
  simp only [applySelectedVis, htag]
  refine foldVisUpdates_mem_some _ _ _ c _ hc rfl ?_
  rw [setVisibility_isSome]
  exact hv

theorem hoverPhase_isSome (w : NtWorld) (settings : NameTagSettings)
    (stHover hoverTag : Option Nat) (vis : VisMap) (x : Nat) :
    (hoverPhase w settings stHover hoverTag vis x).isSome = (vis x).isSome := by
  unfold hoverPhase
  rw [forceVisible_isSome]
  split
  · rfl
  · exact restoreHoverVis_isSome w settings stHover vis x

theorem selectPhase_isSome (w : NtWorld) (settings : NameTagSettings)
    (stSelected selectedTag : Option Nat) (vis : VisMap) (x : Nat) :
    (selectPhase w settings stSelected selectedTag vis x).isSome = (vis x).isSome := by
  unfold selectPhase
  split
  · rfl
  · exact restoreSelectedVis_isSome w settings stSelected vis x

theorem ite_option_self (a b : Option Nat) : (if a = b then a else b) = b := by
  by_cases h : a = b
  · rw [if_pos h, h]
  · rw [if_neg h]

theorem nameTagVisibilitySystem_vis (w : NtWorld) (settings : NameTagSettings)
    (st : NameTagVisibility) (tgt : SelectedTarget) (vis : VisMap) :
    (nameTagVisibilitySystem w settings st tgt vis).vis
      = applySelectedVis w ((vetoTarget w tgt.selected).bind w.nameTagEntity)
          (selectPhase w settings st.selected
            ((vetoTarget w tgt.selected).bind w.nameTagEntity)
            (hoverPhase w settings st.hover
              ((vetoTarget w tgt.hover).bind w.nameTagEntity) vis)) := rfl

theorem nameTagVisibilitySystem_state (w : NtWorld) (settings : NameTagSettings)
    (st : NameTagVisibility) (tgt : SelectedTarget) (vis : VisMap) :
    (nameTagVisibilitySystem w settings st tgt vis).state
      = ⟨(vetoTarget w tgt.hover).bind w.nameTagEntity,
         (vetoTarget w tgt.selected).bind w.nameTagEntity⟩ := by
  have h1 : (nameTagVisibilitySystem w settings st tgt vis).state
      = ⟨if st.hover = (vetoTarget w tgt.hover).bind w.nameTagEntity then st.hover
         else (vetoTarget w tgt.hover).bind w.nameTagEntity,
         if st.selected = (vetoTarget w tgt.selected).bind w.nameTagEntity then st.selected
         else (vetoTarget w tgt.selected).bind w.nameTagEntity⟩ := rfl
  rw [h1, ite_option_self, ite_option_self]

theorem nameTagVisibilitySystem_target (w : NtWorld) (settings : NameTagSettings)
    (st : NameTagVisibility) (tgt : SelectedTarget) (vis : VisMap) :
    (nameTagVisibilitySystem w settings st tgt vis).target
      = ⟨vetoTarget w tgt.hover, vetoTarget w tgt.selected⟩ := rfl

theorem applySelectedVis_none (w : NtWorld) (vis : VisMap) :
    applySelectedVis w none vis = vis := rfl

theorem hoverPhase_lost (w : NtWorld) (settings : NameTagSettings) (B : Nat)
    (vis : VisMap) :
    hoverPhase w settings (some B) none vis = restoreHoverVis w settings (some B) vis := by
  unfold hoverPhase
  rw [if_neg (Option.some_ne_none B)]
  rfl

theorem selectPhase_lost (w : NtWorld) (settings : NameTagSettings) (A : Nat)
    (vis : VisMap) :
    selectPhase w settings (some A) none vis
      = restoreSelectedVis w settings (some A) vis := by
  unfold selectPhase
  rw [if_neg (Option.some_ne_none A)]

theorem selectPhase_kept (w : NtWorld) (settings : NameTagSettings)
    (t : Option Nat) (vis : VisMap) :
    selectPhase w settings t t vis = vis := by
  unfold selectPhase
  rw [if_pos rfl]

theorem restoreSelectedVis_noTag (w : NtWorld) (settings : NameTagSettings)
    (p : Nat) (vis : VisMap) (htp : w.nameTags p = none) :
    restoreSelectedVis w settings (some p) vis = vis := by
  simp only [restoreSelectedVis, htp]

theorem applySelectedVis_noTag (w : NtWorld) (e : Nat) (vis : VisMap)
    (hte : w.nameTags e = none) :
    applySelectedVis w (some e) vis = vis := by
  simp only [applySelectedVis, hte]

theorem applySelectedVis_other (w : NtWorld) (e : Nat) (vis : VisMap)
    (x : Nat) (tagE : NameTagData) (htag : w.nameTags e = some tagE)
    (hxe : x ≠ e) (hxc : x ∉ tagE.children) :
    applySelectedVis w (some e) vis x = vis x := by
  simp only [applySelectedVis, htag]
  rw [foldVisUpdates_not_mem _ _ _ x hxc]
  exact setVisibility_ne vis e _ x hxe

/-- Claim C4: per focus field — if the selected focus target resolves to a
dead NPC character, `selected` is cleared to none within the same tick and
the previously recorded selected anchor gets its default visibility rule
restored that tick (the hover field may be anything); symmetrically, if
the hovered focus target resolves to a dead NPC character, `hover` is
cleared and the previously recorded hover anchor is restored to its
default rule, provided the (independent) selection steps that run later in
the tick do not write that anchor. -/
theorem dead_target_veto (w : NtWorld) (settings : NameTagSettings)
    (st : NameTagVisibility) (tgt : SelectedTarget) (vis : VisMap) :
    (∀ sc, tgt.selected = some sc → w.npcDead sc = true →
      (nameTagVisibilitySystem w settings st tgt vis).target.selected = none
      ∧ (nameTagVisibilitySystem w settings st tgt vis).state.selected = none
      ∧ ∀ A tagA, st.selected = some A → w.nameTags A = some tagA →
          (vis A).isSome = true → A ∉ tagA.children →
          (nameTagVisibilitySystem w settings st tgt vis).vis A
            = some (defaultVisibility w settings A tagA))
    ∧ (∀ hc, tgt.hover = some hc → w.npcDead hc = true →
      (nameTagVisibilitySystem w settings st tgt vis).target.hover = none
      ∧ (nameTagVisibilitySystem w settings st tgt vis).state.hover = none
      ∧ ∀ B tagB, st.hover = some B → w.nameTags B = some tagB →
          (vis B).isSome = true →
          (∀ P, st.selected = some P → B ≠ P
            ∧ ∀ tagP, w.nameTags P = some tagP → B ∉ tagP.children) →
          (∀ E, (vetoTarget w tgt.selected).bind w.nameTagEntity = some E → B ≠ E
            ∧ ∀ tagE, w.nameTags E = some tagE → B ∉ tagE.children) →
          (nameTagVisibilitySystem w settings st tgt vis).vis B
            = some (defaultVisibility w settings B tagB)) := by
  have htgt := nameTagVisibilitySystem_target w settings st tgt vis
  have hstate := nameTagVisibilitySystem_state w settings st tgt vis
  have hvis := nameTagVisibilitySystem_vis w settings st tgt vis
  constructor
  · intro sc hsel hdead
    have hvetoS : vetoTarget w tgt.selected = none := by
      simp [vetoTarget, hsel, hdead]
    rw [hvetoS] at htgt hstate hvis
    simp only [Option.none_bind] at hstate hvis
    refine ⟨by rw [htgt], by rw [hstate], ?_⟩
    intro A tagA hstS htagA hvA hAc
    rw [hstS, applySelectedVis_none, selectPhase_lost] at hvis
    rw [hvis]
    refine restoreSelectedVis_self w settings A _ tagA htagA ?_ hAc
    rw [hoverPhase_isSome]
    exact hvA
  · intro hc hhov hdead
    have hvetoH : vetoTarget w tgt.hover = none := by
      simp [vetoTarget, hhov, hdead]
    rw [hvetoH] at htgt hstate hvis
    simp only [Option.none_bind] at hstate hvis
    refine ⟨by rw [htgt], by rw [hstate], ?_⟩
    intro B tagB hstH htagB hvB hPsel hEsel
    rw [hstH, hoverPhase_lost] at hvis
    have hB2 : ∀ vv : VisMap, selectPhase w settings st.selected
        ((vetoTarget w tgt.selected).bind w.nameTagEntity) vv B = vv B := by
      intro vv
      unfold selectPhase
      split
      · rfl
      · rcases hsp : st.selected with _ | P
        · rfl
        · obtain ⟨hBP, hChild⟩ := hPsel P hsp
          rcases htP : w.nameTags P with _ | tagP
          · rw [restoreSelectedVis_noTag w settings P vv htP]
          · exact restoreSelectedVis_other w settings P vv B tagP htP hBP
              (hChild tagP htP)
    have hB3 : ∀ vv : VisMap, applySelectedVis w
        ((vetoTarget w tgt.selected).bind w.nameTagEntity) vv B = vv B := by
      intro vv
      rcases hse : (vetoTarget w tgt.selected).bind w.nameTagEntity with _ | E
      · rfl
      · obtain ⟨hBE, hChildE⟩ := hEsel E hse
        rcases htE : w.nameTags E with _ | tagE
        · rw [applySelectedVis_noTag w E vv htE]
        · exact applySelectedVis_other w E vv B tagE htE hBE (hChildE tagE htE)
    rw [hvis, hB3, hB2]
    exact restoreHoverVis_self w settings B vis tagB htagB hvB

/-- Witness for C4, exercising each field's case separately: first only
the selected target (dead NPC 3) with recorded selected anchor 10 and no
hover at all; then only the hovered target (dead NPC 3) with recorded
hover anchor 11 and no selection at all. -/
theorem dead_target_veto_witness :
    ((nameTagVisibilitySystem ntWorldSample settingsSample ⟨none, some 10⟩
        ⟨none, some 3⟩ visSample).target.selected = none
    ∧ (nameTagVisibilitySystem ntWorldSample settingsSample ⟨none, some 10⟩
        ⟨none, some 3⟩ visSample).state.selected = none
    ∧ (nameTagVisibilitySystem ntWorldSample settingsSample ⟨none, some 10⟩
        ⟨none, some 3⟩ visSample).vis 10
        = some (defaultVisibility ntWorldSample settingsSample 10
            ⟨NameTagType.npc, [12, 13, 14]⟩))
    ∧ ((nameTagVisibilitySystem ntWorldSample settingsSample ⟨some 11, none⟩
        ⟨some 3, none⟩ visSample).target.hover = none
    ∧ (nameTagVisibilitySystem ntWorldSample settingsSample ⟨some 11, none⟩
        ⟨some 3, none⟩ visSample).state.hover = none
    ∧ (nameTagVisibilitySystem ntWorldSample settingsSample ⟨some 11, none⟩
        ⟨some 3, none⟩ visSample).vis 11
        = some (defaultVisibility ntWorldSample settingsSample 11
            ⟨NameTagType.character, [15]⟩)) :=
  have h1 := (dead_target_veto ntWorldSample settingsSample ⟨none, some 10⟩
    ⟨none, some 3⟩ visSample).1 3 rfl (by decide)
  have h2 := (dead_target_veto ntWorldSample settingsSample ⟨some 11, none⟩
    ⟨some 3, none⟩ visSample).2 3 rfl (by decide)
  ⟨⟨h1.1, h1.2.1,
    h1.2.2 10 ⟨NameTagType.npc, [12, 13, 14]⟩ rfl (by decide) (by decide) (by decide)⟩,
   ⟨h2.1, h2.2.1,
    h2.2.2 11 ⟨NameTagType.character, [15]⟩ rfl (by decide) (by decide)
      (fun P hP => Option.noConfusion hP) (fun E hE => Option.noConfusion hE)⟩⟩

/-- Claim C5: on every tick in which a selection exists (changed or not),
the selected anchor is forced visible and every child of the anchor is
hidden exactly when it is a health-bar element and the anchor is a store
tag or of character type, and made visible otherwise. -/
theorem selected_children_visibility (w : NtWorld) (settings : NameTagSettings)
    (st : NameTagVisibility) (tgt : SelectedTarget) (vis : VisMap)
    (e A : Nat) (tag : NameTagData)
    (hsel : tgt.selected = some e) (halive : w.npcDead e = false)
    (hanchor : w.nameTagEntity e = some A)
    (htag : w.nameTags A = some tag)
    (hvA : (vis A).isSome = true)
    (hAc : A ∉ tag.children) :
    (nameTagVisibilitySystem w settings st tgt vis).vis A = some Visibility.inherited
    ∧ ∀ c ∈ tag.children, (vis c).isSome = true →
        (nameTagVisibilitySystem w settings st tgt vis).vis c
          = some (selectedChildRule w (isStoreNameTag w A) tag.nameTagType c) := by
  have hvetoS : vetoTarget w tgt.selected = some e := by
    simp [vetoTarget, hsel, halive]
  have hvis := nameTagVisibilitySystem_vis w settings st tgt vis
  rw [hvetoS] at hvis
  simp only [Option.some_bind] at hvis
  rw [hanchor] at hvis
  have hdom : ∀ x : Nat,
      ((selectPhase w settings st.selected (some A)
        (hoverPhase w settings st.hover
          ((vetoTarget w tgt.hover).bind w.nameTagEntity) vis)) x).isSome
      = (vis x).isSome := by
    intro x
    rw [selectPhase_isSome, hoverPhase_isSome]
  constructor
  · rw [hvis]
    exact applySelectedVis_anchor w A _ tag htag ((hdom A).trans hvA) hAc
  · intro c hc hvc
    rw [hvis]
    exact applySelectedVis_child w A _ tag c htag hc ((hdom c).trans hvc)

/-- Witness for C5: character 2 is selected; its character-type anchor 11
is forced visible and child 15 (not a health bar) is made visible. -/
theorem selected_children_visibility_witness :
    ((nameTagVisibilitySystem ntWorldSample settingsSample ⟨none, none⟩
        ⟨none, some 2⟩ visSample).vis 11 = some Visibility.inherited
    ∧ ∀ c ∈ ([15] : List Nat), (visSample c).isSome = true →
        (nameTagVisibilitySystem ntWorldSample settingsSample ⟨none, none⟩
          ⟨none, some 2⟩ visSample).vis c
          = some (selectedChildRule ntWorldSample (isStoreNameTag ntWorldSample 11)
              NameTagType.character c)) :=
  selected_children_visibility ntWorldSample settingsSample ⟨none, none⟩
    ⟨none, some 2⟩ visSample 2 11 ⟨NameTagType.character, [15]⟩
    rfl (by decide) (by decide) (by decide) (by decide) (by decide)

/-- Claim C6: with anchor A both hovered and selected, moving hover to a
different anchor B while A stays selected leaves A visible at the end of
the tick: the hover-loss restore may apply A's default rule, but the
unconditional selection step re-forces A visible afterwards. -/
theorem hover_move_keeps_selected_visible (w : NtWorld) (settings : NameTagSettings)
    (st : NameTagVisibility) (tgt : SelectedTarget) (vis : VisMap)
    (A B hb sc : Nat) (tagA : NameTagData)
    (hstH : st.hover = some A) (hstS : st.selected = some A)
    (hth : tgt.hover = some hb) (hhalive : w.npcDead hb = false)
    (hhres : w.nameTagEntity hb = some B)
    (hts : tgt.selected = some sc) (hsalive : w.npcDead sc = false)
    (hsres : w.nameTagEntity sc = some A)
    (hBA : B ≠ A) (htagA : w.nameTags A = some tagA)
    (hvA : (vis A).isSome = true) (hAc : A ∉ tagA.children) :
    (nameTagVisibilitySystem w settings st tgt vis).vis A = some Visibility.inherited
    ∧ (nameTagVisibilitySystem w settings st tgt vis).state.hover = some B
    ∧ (nameTagVisibilitySystem w settings st tgt vis).state.selected = some A := by
  have hvetoH : vetoTarget w tgt.hover = some hb := by
    simp [vetoTarget, hth, hhalive]
  have hvetoS : vetoTarget w tgt.selected = some sc := by
    simp [vetoTarget, hts, hsalive]
  have hstate := nameTagVisibilitySystem_state w settings st tgt vis
  have hvis := nameTagVisibilitySystem_vis w settings st tgt vis
  rw [hvetoH, hvetoS] at hstate hvis
  simp only [Option.some_bind] at hstate hvis
  rw [hhres, hsres] at hstate hvis
  rw [hstS, selectPhase_kept] at hvis
  refine ⟨?_, ?_, ?_⟩
  · rw [hvis]
    refine applySelectedVis_anchor w A _ tagA htagA ?_ hAc
    rw [hoverPhase_isSome]
    exact hvA
  · rw [hstate]
  · rw [hstate]

/-- Witness for C6: anchor 10 is hovered and selected; hover moves to
anchor 11 while selection stays on character 1 (anchor 10). -/
theorem hover_move_keeps_selected_visible_witness :
    ((nameTagVisibilitySystem ntWorldSample settingsSample ⟨some 10, some 10⟩
        ⟨some 2, some 1⟩ visSample).vis 10 = some Visibility.inherited
    ∧ (nameTagVisibilitySystem ntWorldSample settingsSample ⟨some 10, some 10⟩
        ⟨some 2, some 1⟩ visSample).state.hover = some 11
    ∧ (nameTagVisibilitySystem ntWorldSample settingsSample ⟨some 10, some 10⟩
        ⟨some 2, some 1⟩ visSample).state.selected = some 10) :=
  hover_move_keeps_selected_visible ntWorldSample settingsSample ⟨some 10, some 10⟩
    ⟨some 2, some 1⟩ visSample 10 11 2 1 ⟨NameTagType.npc, [12, 13, 14]⟩
    rfl rfl rfl (by decide) (by decide) rfl (by decide) (by decide) (by decide)
    (by decide) (by decide) (by decide)

end RoseOfflineClient
